import Mathlib

/-!
Verification of the wgpu_voxel renderer core against its specification.

The development shallowly embeds the Rust sources of the repository:

* `src/tracengine/src/renderer/hal/buffer.rs`   — typed GPU buffers,
* `src/tracengine/src/renderer/hal/texture.rs`  — textures and descriptors,
* `src/tracengine/src/renderer/hal/pipeline.rs` — shader-resource builder,
* `src/tracengine/src/renderer/hal/taa.rs`      — the TAA subsystem,
* `src/tracengine/src/renderer/mod.rs`          — renderer vertex-buffer registry,
* `src/tracengine/src/renderer/voxel/chunk.rs`  — 3D-texture packing,
* `src/src/renderer/voxel/chunk.rs`             — chunk meshing,
* `src/src/renderer/pbr/mesh.rs`                — per-face vertex emission,
* `src/src/renderer/voxel/model.rs`             — voxel-model chunk partition.

Modelling conventions:

* Machine integers (`usize`, `u64`, `u32`, `u8`) are modelled as `Nat`; the
  sources never exercise wrap-around on the quantities involved, and where a
  Rust `as u8` cast can truncate it is modelled honestly as `% 256`.
* GPU device objects are modelled by a `handle : Nat` identity; every fresh
  device allocation bumps the handle, so handle inequality captures the
  "reallocation invalidates previous bindings" behaviour.
* Queue writes (`queue.write_buffer` / `queue.write_texture`) mutate GPU
  memory, not program state; they are reified as explicit write-action values
  that record the target handle, the byte offset and the data written.
* Rust panics (`unwrap` / `expect` / `panic!`) are modelled by `Option` /
  dedicated crash constructors: `none` means the source code panics.
* `f32` values that the sources only ever copy (colors, jitter) are carried
  as opaque numeric codes; `f32` values produced by casting small integers
  (vertex positions, transform translations) are modelled as `Nat`/`Int`,
  which is exact because every such value is an integer far below 2^24.
-/

/-! ## Typed GPU buffers (`tracengine/src/renderer/hal/buffer.rs`) -/

/-- Error type `RenderError`; only the `BufferOverflow(usize)` variant is
reachable from the buffer layer. -/
inductive RenderError where
  | bufferOverflow (requested : Nat)
deriving DecidableEq, Repr

/-- Error type `InvalidBufferId(BufferId)` from `hal/buffer.rs`. -/
structure InvalidBufferId where
  id : Nat
deriving DecidableEq, Repr

/-- `Buffer<T>` owns a device buffer (`inner`, modelled by an allocation
handle) and tracks `capacity` in elements of `T`. -/
structure Buffer (α : Type) where
  handle : Nat
  capacity : Nat
deriving DecidableEq, Repr

/-- A recorded `queue.write_buffer(buffer, byte_offset, data)` call. -/
structure WriteAction (α : Type) where
  handle : Nat
  byteOffset : Nat
  data : List α
deriving DecidableEq, Repr

/-- `Buffer::fill_exact(renderer, offset, data)`: errors with
`BufferOverflow(data.len())` when `data.len() > self.capacity`, otherwise
issues `queue.write_buffer(inner, offset * size_of::<T>(), data)` unless the
data is empty.  `elemSize` stands for `size_of::<T>()`.  Returns the recorded
write action (`none` when no write was issued). -/
def Buffer.fill_exact (elemSize : Nat) (b : Buffer α) (offset : Nat) (data : List α) :
    Except RenderError (Option (WriteAction α)) :=
  if data.length > b.capacity then
    .error (.bufferOverflow data.length)
  else if data.isEmpty then
    .ok none
  else
    .ok (some ⟨b.handle, offset * elemSize, data⟩)

/-- `Buffer::resize(renderer, capacity)`: reallocates the device buffer
(fresh handle) and sets `capacity`. -/
def Buffer.resize (b : Buffer α) (capacity : Nat) : Buffer α :=
  ⟨b.handle + 1, capacity⟩

/-- `Buffer::fill(renderer, offset, data)`: computes
`bytes_to_write = size_of_val(data)`, resizes to `data.len()` elements when
`bytes_to_write > capacity * size_of::<T>()`, then calls
`fill_exact(offset, data).unwrap()`.  `none` models the `unwrap` panicking. -/
def Buffer.fill (elemSize : Nat) (b : Buffer α) (offset : Nat) (data : List α) :
    Option (Buffer α × Option (WriteAction α)) :=
  let bytesToWrite := data.length * elemSize
  let b' := if bytesToWrite > b.capacity * elemSize then b.resize data.length else b
  match b'.fill_exact elemSize offset data with
  | .error _ => none
  | .ok w => some (b', w)

/-! ## Renderer vertex-buffer registry (`tracengine/src/renderer/mod.rs`) -/

/-- `size_of::<Vertex>()`: three `glm::Vec3` fields (position, normal, color),
9 × 4 bytes. -/
def vertexByteSize : Nat := 36

/-- `Renderer::update_vertex_buffer(id, data)`.  The renderer state is the
`vertex_buffers: Vec<Buffer<Vertex>>` registry; the result carries the new
registry, the recorded write action (if any) and the `Result<(), InvalidBufferId>`
value.  The outer `Option` models the `fill` panic path (unreachable for
`Vertex`, whose size is positive). -/
def Renderer.update_vertex_buffer (bufs : List (Buffer α)) (id : Nat) (data : List α) :
    Option (List (Buffer α) × Option (WriteAction α) × Except InvalidBufferId Unit) :=
  match bufs[id]? with
  | none => some (bufs, none, .error ⟨id⟩)
  | some b =>
    match b.fill_exact vertexByteSize 0 data with
    | .ok w => some (bufs, w, .ok ())
    | .error _ =>
      match b.fill vertexByteSize 0 data with
      | none => none
      | some (b', w) => some (bufs.set id b', w, .ok ())

/-! ## Textures (`tracengine/src/renderer/hal/texture.rs`) -/

/-- `wgpu::TextureDimension`. -/
inductive TextureDimension where
  | d1
  | d2
  | d3
deriving DecidableEq, Repr

/-- `TextureDescriptor` snapshot stored inside a `Texture`.  `filter`,
`usage`, `format` and `label` are payloads the claims only copy; they are
carried as opaque numeric codes. -/
structure TextureDescriptor where
  width : Nat
  height : Nat
  depth : Option Nat
  filter : Nat
  dimension : TextureDimension
  usage : Nat
  format : Nat
  label : Nat
deriving DecidableEq, Repr

/-- `Texture`: a device image identified by an allocation handle plus the
stored descriptor snapshot. -/
structure Texture where
  handle : Nat
  description : TextureDescriptor
deriving DecidableEq, Repr

/-- `Texture::resize(renderer, size)`: recreates the whole texture from a
descriptor copy with updated width/height (fresh device handle). -/
def Texture.resize (t : Texture) (width height : Nat) : Texture :=
  ⟨t.handle + 1, { t.description with width := width, height := height }⟩

/-! ## Blocks and chunks (`src/renderer/voxel/block.rs`, `voxel/chunk.rs`) -/

/-- `Block`: active flag plus `color_id: u8` palette index. -/
structure Block where
  active : Bool
  color_id : Nat
deriving DecidableEq, Repr

/-- `Color { r, g, b: f32 }`.  The components are only ever copied, so they
are carried as opaque numeric codes. -/
structure Color where
  r : Nat
  g : Nat
  b : Nat
deriving DecidableEq, Repr

/-- `Chunk::CHUNK_SIZE`. -/
def CHUNK_SIZE : Nat := 32

/-- `Chunk`: a `CHUNK_SIZE³` block grid (the fixed-size Rust array is
modelled as a total function, read only at indices below `CHUNK_SIZE`) plus
the shared color palette.  The cached `vertex_buffer: Option<BufferId>`
handle is irrelevant to every claim and omitted. -/
structure Chunk where
  blocks : Nat → Nat → Nat → Block
  palette : List Color

/-- `Chunk::new(palette)` / `Chunk::default()`: all blocks inactive. -/
def Chunk.new (palette : List Color) : Chunk :=
  ⟨fun _ _ _ => ⟨false, 0⟩, palette⟩

/-- `Chunk::get_block(x, y, z)`: the `.get` chain on the nested arrays. -/
def Chunk.get_block (c : Chunk) (x y z : Nat) : Option Block :=
  if x < CHUNK_SIZE then
    if y < CHUNK_SIZE then
      if z < CHUNK_SIZE then some (c.blocks x y z) else none
    else none
  else none

/-- `Chunk::check_block(x, y, z)`: `get_block(..).filter(|b| b.is_active()).is_some()`. -/
def Chunk.check_block (c : Chunk) (x y z : Nat) : Bool :=
  match c.get_block x y z with
  | some b => b.active
  | none => false

/-- Error type `InvalidBlockCoords` from `voxel/chunk.rs`. -/
structure InvalidBlockCoords where
  x : Nat
  y : Nat
  z : Nat
deriving DecidableEq, Repr

/-- `Chunk::set_block(block, x, y, z)`. -/
def Chunk.set_block (c : Chunk) (b : Block) (x y z : Nat) :
    Except InvalidBlockCoords Chunk :=
  if x ≥ CHUNK_SIZE ∨ y ≥ CHUNK_SIZE ∨ z ≥ CHUNK_SIZE then
    .error ⟨x, y, z⟩
  else
    .ok ⟨fun a b' c' => if a = x ∧ b' = y ∧ c' = z then b else c.blocks a b' c', c.palette⟩

/-! ## Voxel → 3D-texture packing (`tracengine/src/renderer/voxel/chunk.rs`) -/

/-- `LoadChunkError` from `tracengine`'s `voxel/chunk.rs`.  The
`InvalidTextureSize` payload (two `Extent3d`) is flattened to the four
width/height components that build it. -/
inductive LoadChunkError where
  | invalidTextureDimension (expected found : TextureDimension)
  | invalidTextureSize (expectedW expectedH foundW foundH : Nat)
  | invalidChunksIndex (max found : Nat)
  | invalidTextureDepth (depth : Nat)
deriving DecidableEq, Repr

/-- `bool as u8`. -/
def boolToU8 (b : Bool) : Nat := if b then 1 else 0

/-- `Chunk::data_to_u8_slice()`: for `z`, then `y`, then `x` in `0..CHUNK_SIZE`
push `[is_active as u8, color_id, 0, 0]`.  (`get_block(x,y,z).unwrap()` never
panics here because the loop indices are in range; see
`get_block_eq_of_lt`.) -/
def Chunk.data_to_u8_slice (c : Chunk) : List Nat :=
  (List.range CHUNK_SIZE).flatMap fun z =>
    (List.range CHUNK_SIZE).flatMap fun y =>
      (List.range CHUNK_SIZE).flatMap fun x =>
        [boolToU8 (c.blocks x y z).active, (c.blocks x y z).color_id, 0, 0]

/-- A recorded `queue.write_texture` call: destination texture handle, the
`ImageDataLayout` byte offset, and the source byte buffer. -/
structure TexWriteAction where
  textureHandle : Nat
  byteOffset : Nat
  bytes : List Nat
deriving DecidableEq, Repr

/-- `glm::Vec4` as uploaded into the palette buffer: `vec4(c.r, c.g, c.b, 1.0)`. -/
structure Vec4 where
  x : Nat
  y : Nat
  z : Nat
  w : Nat
deriving DecidableEq, Repr

/-- The `|c| glm::vec4(c.r, c.g, c.b, 1.0)` palette conversion (the literal
`1.0` is carried as code `1`). -/
def Color.toVec4 (c : Color) : Vec4 := ⟨c.r, c.g, c.b, 1⟩

/-- `size_of::<glm::Vec4>()`. -/
def vec4ByteSize : Nat := 16

/-- Result of `Chunk::write_to_texture`: a typed `LoadChunkError`, a crash of
the trailing `palettes_buffer.fill_exact(..).unwrap()` (the texture write has
already been issued when it fires), or success carrying the recorded texture
and palette-buffer writes. -/
inductive WriteOutcome where
  | errored (e : LoadChunkError)
  | crashed (texWrite : TexWriteAction)
  | ok (texWrite : TexWriteAction) (paletteWrite : Option (WriteAction Vec4))

/-- `Chunk::write_to_texture(renderer, chunks_texture, palettes_buffer,
chunk_index)`: validates dimension, depth multiple, width/height and chunk
index in source order, then issues the `write_texture` upload at byte offset
`chunk_index * CHUNK_SIZE³ * 4` and uploads the palette at element offset
`chunk_index` of the palette buffer. -/
def Chunk.write_to_texture (c : Chunk) (chunks_texture : Texture)
    (palettes_buffer : Buffer Vec4) (chunk_index : Nat) : WriteOutcome :=
  let descr := chunks_texture.description
  if descr.dimension ≠ .d3 then
    .errored (.invalidTextureDimension .d3 descr.dimension)
  else if (descr.depth.getD 1) % CHUNK_SIZE ≠ 0 then
    .errored (.invalidTextureDepth (descr.depth.getD 1))
  else if descr.width ≠ CHUNK_SIZE ∨ descr.height ≠ CHUNK_SIZE then
    .errored (.invalidTextureSize CHUNK_SIZE CHUNK_SIZE descr.width descr.height)
  else
    let max_chunks := (descr.depth.getD 1) / CHUNK_SIZE
    if chunk_index ≥ max_chunks then
      .errored (.invalidChunksIndex max_chunks chunk_index)
    else
      let texWrite : TexWriteAction :=
        ⟨chunks_texture.handle,
         chunk_index * CHUNK_SIZE * CHUNK_SIZE * CHUNK_SIZE * 4,
         c.data_to_u8_slice⟩
      match palettes_buffer.fill_exact vec4ByteSize chunk_index (c.palette.map Color.toVec4) with
      | .error _ => .crashed texWrite
      | .ok w => .ok texWrite w

/-- Whether a `WriteOutcome` is a typed error. -/
def WriteOutcome.isErrored : WriteOutcome → Bool
  | .errored _ => true
  | _ => false

/-- Whether a `WriteOutcome` is the post-write `unwrap` panic. -/
def WriteOutcome.isCrashed : WriteOutcome → Bool
  | .crashed _ => true
  | _ => false

/-- Whether a `WriteOutcome` is the success case. -/
def WriteOutcome.isOk : WriteOutcome → Bool
  | .ok _ _ => true
  | _ => false

/-! ## Meshing (`src/src/renderer/pbr/mesh.rs`, `src/src/renderer/voxel/chunk.rs`) -/

/-- `Vertex { position, normal, color }`.  Positions are `x as f32` (+1.0)
casts of grid indices ≤ 32, and normals are the unit axis vectors, so both
are exactly representable and modelled as `Nat`/`Int` triples. -/
structure Vertex where
  position : Nat × Nat × Nat
  normal : Int × Int × Int
  color : Color
deriving DecidableEq, Repr

/-- `Mesh { vertex_data: Vec<Vertex> }`. -/
structure Mesh where
  vertex_data : List Vertex
deriving DecidableEq, Repr

/-- `Mesh::default()`. -/
def Mesh.default : Mesh := ⟨[]⟩

/-- The six vertices pushed by `Mesh::add_top_face`, in source order. -/
def top_face_data (x y z : Nat) (color : Color) : List Vertex :=
  [⟨(x, y + 1, z), (0, 1, 0), color⟩,
   ⟨(x, y + 1, z + 1), (0, 1, 0), color⟩,
   ⟨(x + 1, y + 1, z), (0, 1, 0), color⟩,
   ⟨(x + 1, y + 1, z), (0, 1, 0), color⟩,
   ⟨(x, y + 1, z + 1), (0, 1, 0), color⟩,
   ⟨(x + 1, y + 1, z + 1), (0, 1, 0), color⟩]

/-- The six vertices pushed by `Mesh::add_bottom_face`, in source order. -/
def bottom_face_data (x y z : Nat) (color : Color) : List Vertex :=
  [⟨(x, y, z), (0, -1, 0), color⟩,
   ⟨(x + 1, y, z), (0, -1, 0), color⟩,
   ⟨(x, y, z + 1), (0, -1, 0), color⟩,
   ⟨(x + 1, y, z), (0, -1, 0), color⟩,
   ⟨(x + 1, y, z + 1), (0, -1, 0), color⟩,
   ⟨(x, y, z + 1), (0, -1, 0), color⟩]

/-- The six vertices pushed by `Mesh::add_front_face`, in source order. -/
def front_face_data (x y z : Nat) (color : Color) : List Vertex :=
  [⟨(x, y, z), (0, 0, 1), color⟩,
   ⟨(x, y + 1, z), (0, 0, 1), color⟩,
   ⟨(x + 1, y, z), (0, 0, 1), color⟩,
   ⟨(x + 1, y, z), (0, 0, 1), color⟩,
   ⟨(x, y + 1, z), (0, 0, 1), color⟩,
   ⟨(x + 1, y + 1, z), (0, 0, 1), color⟩]

/-- The six vertices pushed by `Mesh::add_back_face`, in source order. -/
def back_face_data (x y z : Nat) (color : Color) : List Vertex :=
  [⟨(x, y, z + 1), (0, 0, -1), color⟩,
   ⟨(x + 1, y, z + 1), (0, 0, -1), color⟩,
   ⟨(x, y + 1, z + 1), (0, 0, -1), color⟩,
   ⟨(x + 1, y, z + 1), (0, 0, -1), color⟩,
   ⟨(x + 1, y + 1, z + 1), (0, 0, -1), color⟩,
   ⟨(x, y + 1, z + 1), (0, 0, -1), color⟩]

/-- The six vertices pushed by `Mesh::add_left_face`, in source order. -/
def left_face_data (x y z : Nat) (color : Color) : List Vertex :=
  [⟨(x, y, z), (-1, 0, 0), color⟩,
   ⟨(x, y, z + 1), (-1, 0, 0), color⟩,
   ⟨(x, y + 1, z), (-1, 0, 0), color⟩,
   ⟨(x, y + 1, z), (-1, 0, 0), color⟩,
   ⟨(x, y, z + 1), (-1, 0, 0), color⟩,
   ⟨(x, y + 1, z + 1), (-1, 0, 0), color⟩]

/-- The six vertices pushed by `Mesh::add_right_face`, in source order. -/
def right_face_data (x y z : Nat) (color : Color) : List Vertex :=
  [⟨(x + 1, y, z), (1, 0, 0), color⟩,
   ⟨(x + 1, y + 1, z), (1, 0, 0), color⟩,
   ⟨(x + 1, y, z + 1), (1, 0, 0), color⟩,
   ⟨(x + 1, y, z + 1), (1, 0, 0), color⟩,
   ⟨(x + 1, y + 1, z), (1, 0, 0), color⟩,
   ⟨(x + 1, y + 1, z + 1), (1, 0, 0), color⟩]

/-- `Mesh::add_top_face` appends `top_face_data` to `vertex_data`. -/
def Mesh.add_top_face (m : Mesh) (x y z : Nat) (color : Color) : Mesh :=
  ⟨m.vertex_data ++ top_face_data x y z color⟩

/-- `Mesh::add_bottom_face`. -/
def Mesh.add_bottom_face (m : Mesh) (x y z : Nat) (color : Color) : Mesh :=
  ⟨m.vertex_data ++ bottom_face_data x y z color⟩

/-- `Mesh::add_front_face`. -/
def Mesh.add_front_face (m : Mesh) (x y z : Nat) (color : Color) : Mesh :=
  ⟨m.vertex_data ++ front_face_data x y z color⟩

/-- `Mesh::add_back_face`. -/
def Mesh.add_back_face (m : Mesh) (x y z : Nat) (color : Color) : Mesh :=
  ⟨m.vertex_data ++ back_face_data x y z color⟩

/-- `Mesh::add_left_face`. -/
def Mesh.add_left_face (m : Mesh) (x y z : Nat) (color : Color) : Mesh :=
  ⟨m.vertex_data ++ left_face_data x y z color⟩

/-- `Mesh::add_right_face`. -/
def Mesh.add_right_face (m : Mesh) (x y z : Nat) (color : Color) : Mesh :=
  ⟨m.vertex_data ++ right_face_data x y z color⟩

/-- The `(x, y, z)` iteration order of `Chunk::generate_mesh`: `x` outermost,
then `y`, then `z`. -/
def meshCoords : List (Nat × Nat × Nat) :=
  (List.range CHUNK_SIZE).flatMap fun x =>
    (List.range CHUNK_SIZE).flatMap fun y =>
      (List.range CHUNK_SIZE).map fun z => (x, y, z)

/-- The loop body of `Chunk::generate_mesh` for one grid coordinate: skip
inactive blocks, resolve the palette color (`none` models the
`Wrong palette index` panic), then test the six neighbours in source order
(front, back, left, right, bottom, top) and append the visible faces. -/
def Chunk.mesh_step (c : Chunk) (m : Mesh) (p : Nat × Nat × Nat) : Option Mesh :=
  match c.get_block p.1 p.2.1 p.2.2 with
  | none => none
  | some block =>
    if !block.active then some m else
    match c.palette[block.color_id]? with
    | none => none
    | some color =>
      let (x, y, z) := p
      let m := if z = 0 || !c.check_block x y (z - 1) then m.add_front_face x y z color else m
      let m := if !c.check_block x y (z + 1) then m.add_back_face x y z color else m
      let m := if x = 0 || !c.check_block (x - 1) y z then m.add_left_face x y z color else m
      let m := if !c.check_block (x + 1) y z then m.add_right_face x y z color else m
      let m := if y = 0 || !c.check_block x (y - 1) z then m.add_bottom_face x y z color else m
      let m := if !c.check_block x (y + 1) z then m.add_top_face x y z color else m
      some m

/-- `Chunk::generate_mesh()`: fold the loop body over the grid in source
order; `none` models the fatal `Wrong palette index` panic. -/
def Chunk.generate_mesh (c : Chunk) : Option Mesh :=
  meshCoords.foldlM c.mesh_step Mesh.default

/-! ### Specification-side description of the mesher (claim language) -/

/-- The six axis-aligned faces of a block, in the emission order of
`generate_mesh`. -/
inductive FaceDir where
  | front
  | back
  | leftF
  | rightF
  | bottom
  | top
deriving DecidableEq, Repr

/-- All six faces in emission order. -/
def faceOrder : List FaceDir := [.front, .back, .leftF, .rightF, .bottom, .top]

/-- The outward normal carried by each face's vertices. -/
def faceNormal : FaceDir → Int × Int × Int
  | .front => (0, 0, 1)
  | .back => (0, 0, -1)
  | .leftF => (-1, 0, 0)
  | .rightF => (1, 0, 0)
  | .bottom => (0, -1, 0)
  | .top => (0, 1, 0)

/-- The neighbour grid coordinate a face looks at, as integers (so that
"outside the grid" is uniform in all directions). -/
def faceNeighbor (x y z : Nat) : FaceDir → Int × Int × Int
  | .front => (x, y, (z : Int) - 1)
  | .back => (x, y, (z : Int) + 1)
  | .leftF => ((x : Int) - 1, y, z)
  | .rightF => ((x : Int) + 1, y, z)
  | .bottom => (x, (y : Int) - 1, z)
  | .top => (x, (y : Int) + 1, z)

/-- Whether an integer coordinate lies outside the `CHUNK_SIZE³` grid. -/
def outsideGrid (p : Int × Int × Int) : Bool :=
  p.1 < 0 || (CHUNK_SIZE : Int) ≤ p.1 ||
  p.2.1 < 0 || (CHUNK_SIZE : Int) ≤ p.2.1 ||
  p.2.2 < 0 || (CHUNK_SIZE : Int) ≤ p.2.2

/-- Whether the block at an integer coordinate is inside the grid and active. -/
def Chunk.activeAt (c : Chunk) (p : Int × Int × Int) : Bool :=
  !outsideGrid p && (c.blocks p.1.toNat p.2.1.toNat p.2.2.toNat).active

/-- Claim-language face visibility: the block is active and its neighbour in
that direction is outside the grid or inactive. -/
def Chunk.faceVisible (c : Chunk) (x y z : Nat) (f : FaceDir) : Bool :=
  (c.blocks x y z).active &&
    (outsideGrid (faceNeighbor x y z f) || !c.activeAt (faceNeighbor x y z f))

/-- The six vertices of a face, dispatched by direction. -/
def faceData : FaceDir → Nat → Nat → Nat → Color → List Vertex
  | .front => front_face_data
  | .back => back_face_data
  | .leftF => left_face_data
  | .rightF => right_face_data
  | .bottom => bottom_face_data
  | .top => top_face_data

/-- Specification-side contribution of one grid coordinate: six vertices for
every visible face of the block, in face order, with the palette-resolved
color. -/
def Chunk.blockMeshSpec (c : Chunk) (x y z : Nat) : List Vertex :=
  match c.palette[(c.blocks x y z).color_id]? with
  | none => []
  | some color =>
    (faceOrder.filter (c.faceVisible x y z)).flatMap fun f => faceData f x y z color

/-- Specification-side mesh of a whole chunk: the per-block contributions in
grid iteration order. -/
def Chunk.meshSpec (c : Chunk) : List Vertex :=
  meshCoords.flatMap fun p => c.blockMeshSpec p.1 p.2.1 p.2.2

/-- Validity of the palette indices of all active blocks; `generate_mesh`
panics exactly when this fails. -/
def Chunk.paletteOk (c : Chunk) : Prop :=
  ∀ x y z, x < CHUNK_SIZE → y < CHUNK_SIZE → z < CHUNK_SIZE →
    (c.blocks x y z).active = true → (c.blocks x y z).color_id < c.palette.length

/-- A chunk whose only active block sits at `(x, y, z)` with palette index
`ci`. -/
def singleBlockChunk (x y z : Nat) (pal : List Color) (ci : Nat) : Chunk :=
  ⟨fun a b c => if a = x ∧ b = y ∧ c = z then ⟨true, ci⟩ else ⟨false, 0⟩, pal⟩

/-- A chunk with exactly two active blocks, at `(x, y, z)` and
`(x + 1, y, z)`, sharing the `x`-axis face. -/
def twoBlockChunk (x y z : Nat) (pal : List Color) (ci cj : Nat) : Chunk :=
  ⟨fun a b c =>
    if a = x ∧ b = y ∧ c = z then ⟨true, ci⟩
    else if a = x + 1 ∧ b = y ∧ c = z then ⟨true, cj⟩
    else ⟨false, 0⟩, pal⟩

/-! ## Shader resource builder (`tracengine/src/renderer/hal/pipeline.rs`) -/

/-- `wgpu::ShaderStages` as a set of stage flags. -/
structure ShaderStages where
  vertex : Bool
  fragment : Bool
  compute : Bool
deriving DecidableEq, Repr

/-- `wgpu::BufferBindingType`. -/
inductive BufferBindingType where
  | uniform
  | storage (read_only : Bool)
deriving DecidableEq, Repr

/-- The `wgpu::BindingType` cases the builder produces.  `sample_type` and
`format` are opaque payload codes; `view_dimension` is derived from the
texture's dimension. -/
inductive BindingType where
  | bufferB (ty : BufferBindingType)
  | textureB (sample_type : Nat) (view_dimension : TextureDimension)
  | samplerB
  | storageTexture (format : Nat) (view_dimension : TextureDimension)
deriving DecidableEq, Repr

/-- `wgpu::BindGroupLayoutEntry` (with `count: None`,
`has_dynamic_offset: false` fixed by the source). -/
structure BindGroupLayoutEntry where
  binding : Nat
  visibility : ShaderStages
  ty : BindingType
deriving DecidableEq, Repr

/-- The concrete resource a `wgpu::BindGroupEntry` binds. -/
inductive BindingResource where
  | bufferRes (handle : Nat)
  | textureView (handle : Nat)
  | samplerRes (handle : Nat)
deriving DecidableEq, Repr

/-- `wgpu::BindGroupEntry`. -/
structure BindGroupEntry where
  binding : Nat
  resource : BindingResource
deriving DecidableEq, Repr

/-- `BufferResourceDescriptor { visibility, buffer_type }`. -/
structure BufferResourceDescriptor where
  visibility : ShaderStages
  buffer_type : BufferBindingType
deriving DecidableEq, Repr

/-- `TextureResourceUsage` bitflags (TEXTURE = 1, SAMPLER = 2, STORAGE = 4). -/
structure TextureResourceUsage where
  textureFlag : Bool
  samplerFlag : Bool
  storageFlag : Bool
deriving DecidableEq, Repr

/-- One named flag of `TextureResourceUsage`. -/
inductive TexUsageFlag where
  | textureU
  | samplerU
  | storageU
deriving DecidableEq, Repr

/-- `usage.iter()`: the `bitflags` iterator yields the contained named flags
in declaration (= bit) order TEXTURE, SAMPLER, STORAGE. -/
def TextureResourceUsage.flagList (u : TextureResourceUsage) : List TexUsageFlag :=
  (if u.textureFlag then [.textureU] else []) ++
  (if u.samplerFlag then [.samplerU] else []) ++
  (if u.storageFlag then [.storageU] else [])

/-- `TextureResourceDescriptor { usage, sample_type }` (`sample_type` an
opaque code). -/
structure TextureResourceDescriptor where
  usage : TextureResourceUsage
  sample_type : Option Nat
deriving DecidableEq, Repr

/-- `ShaderResourceBuilder`: the two accumulated entry lists (the label only
feeds debug strings and is omitted). -/
structure ShaderResourceBuilder where
  bind_group_layout_entries : List BindGroupLayoutEntry
  bind_group_entries : List BindGroupEntry
deriving DecidableEq, Repr

/-- `ShaderResource::builder()`. -/
def ShaderResourceBuilder.empty : ShaderResourceBuilder := ⟨[], []⟩

/-- Fixed visibility of a TEXTURE aspect: `FRAGMENT | COMPUTE`. -/
def texAspectVisibility : ShaderStages := ⟨false, true, true⟩

/-- Fixed visibility of a SAMPLER aspect: `FRAGMENT`. -/
def samplerAspectVisibility : ShaderStages := ⟨false, true, false⟩

/-- Fixed visibility of a STORAGE aspect: `COMPUTE | FRAGMENT`. -/
def storageAspectVisibility : ShaderStages := ⟨false, true, true⟩

/-- `ShaderResourceBuilder::add_buffer(buffer, descriptor)`: one layout entry
and one bind-group entry, each with `binding` equal to the current length of
its list. -/
def ShaderResourceBuilder.add_buffer (b : ShaderResourceBuilder) (buf : Buffer α)
    (d : BufferResourceDescriptor) : ShaderResourceBuilder :=
  ⟨b.bind_group_layout_entries ++
     [⟨b.bind_group_layout_entries.length, d.visibility, .bufferB d.buffer_type⟩],
   b.bind_group_entries ++
     [⟨b.bind_group_entries.length, .bufferRes buf.handle⟩]⟩

/-- The layout entry contributed by one texture usage flag at the given
binding index (the `filter_map` arm of `add_texture`); `none` models the
`Must specify sample type` panic for a TEXTURE aspect without a sample type. -/
def texLayoutEntry (binding : Nat) (tex : Texture) (d : TextureResourceDescriptor) :
    TexUsageFlag → Option BindGroupLayoutEntry
  | .textureU =>
    (d.sample_type).map fun st =>
      ⟨binding, texAspectVisibility, .textureB st tex.description.dimension⟩
  | .samplerU => some ⟨binding, samplerAspectVisibility, .samplerB⟩
  | .storageU =>
    some ⟨binding, storageAspectVisibility,
      .storageTexture tex.description.format tex.description.dimension⟩

/-- The bind-group entry contributed by one texture usage flag: TEXTURE and
STORAGE bind the texture view, SAMPLER binds the sampler. -/
def texGroupEntry (binding : Nat) (tex : Texture) : TexUsageFlag → BindGroupEntry
  | .textureU => ⟨binding, .textureView tex.handle⟩
  | .samplerU => ⟨binding, .samplerRes tex.handle⟩
  | .storageU => ⟨binding, .textureView tex.handle⟩

/-- `ShaderResourceBuilder::add_texture(texture, descriptor)`: one layout and
one bind-group entry per contained usage flag, with bindings
`len + i` for the `i`-th flag of the iteration. -/
def ShaderResourceBuilder.add_texture (b : ShaderResourceBuilder) (tex : Texture)
    (d : TextureResourceDescriptor) : Option ShaderResourceBuilder := do
  let layoutAdds ← d.usage.flagList.enum.mapM fun pr =>
    texLayoutEntry (b.bind_group_layout_entries.length + pr.1) tex d pr.2
  let groupAdds := d.usage.flagList.enum.map fun pr =>
    texGroupEntry (b.bind_group_entries.length + pr.1) tex pr.2
  return ⟨b.bind_group_layout_entries ++ layoutAdds, b.bind_group_entries ++ groupAdds⟩

/-- One recorded builder call. -/
inductive BuildOp where
  | addBuffer (handle : Nat) (d : BufferResourceDescriptor)
  | addTexture (tex : Texture) (d : TextureResourceDescriptor)

/-- Run one builder call. -/
def ShaderResourceBuilder.step (b : ShaderResourceBuilder) :
    BuildOp → Option ShaderResourceBuilder
  | .addBuffer h d => some (b.add_buffer (⟨h, 0⟩ : Buffer Unit) d)
  | .addTexture tex d => b.add_texture tex d

/-- Run a sequence of `add_buffer` / `add_texture` calls on a builder. -/
def ShaderResourceBuilder.runFrom (b : ShaderResourceBuilder) (ops : List BuildOp) :
    Option ShaderResourceBuilder :=
  ops.foldlM ShaderResourceBuilder.step b

/-- Run a call sequence from `ShaderResource::builder()`; `build()` then
materialises exactly these two entry lists. -/
def runBuilder (ops : List BuildOp) : Option ShaderResourceBuilder :=
  ShaderResourceBuilder.empty.runFrom ops

/-- Number of binding slots one call consumes: 1 for a buffer, one per
contained usage flag for a texture. -/
def BuildOp.slots : BuildOp → Nat
  | .addBuffer _ _ => 1
  | .addTexture _ d => d.usage.flagList.length

/-- Total binding slots of a call sequence. -/
def slotCount (ops : List BuildOp) : Nat := (ops.map BuildOp.slots).sum

/-- Claim-language correspondence between a layout entry kind and the bound
resource at the same index: buffers bind buffers, TEXTURE and STORAGE aspects
bind the texture view, SAMPLER aspects bind the sampler. -/
def entryMatches : BindingType → BindingResource → Prop
  | .bufferB _, .bufferRes _ => True
  | .textureB _ _, .textureView _ => True
  | .samplerB, .samplerRes _ => True
  | .storageTexture _ _, .textureView _ => True
  | _, _ => False

/-! ## Voxel model partition (`src/src/renderer/voxel/model.rs`) -/

/-- `Size { x, y, z: usize }`. -/
structure Size where
  x : Nat
  y : Nat
  z : Nat
deriving DecidableEq, Repr

/-- `Transform`: only the translation matters to the partition; the three
`f32` components are exact casts of small integers and are modelled as
`Int`. -/
structure Transform where
  translation : Int × Int × Int
deriving DecidableEq, Repr

/-- `ChunkBundle { chunk, transform }`. -/
structure ChunkBundle where
  chunk : Chunk
  transform : Transform

/-- `VoxelModel`: the sparse `HashMap<(u8, u8, u8), Block>` is modelled as an
entry list (iteration order is unspecified in Rust, and all properties proved
below are order-independent given distinct keys). -/
structure VoxelModel where
  blocks : List ((Nat × Nat × Nat) × Block)
  palette : List Color
  size : Size

/-- A `HashMap<(u8,u8,u8), Chunk>` modelled as a partial function. -/
def ChunkMap : Type := (Nat × Nat × Nat) → Option Chunk

/-- `HashMap::insert`. -/
def mapInsert (g : ChunkMap) (k : Nat × Nat × Nat) (v : Chunk) : ChunkMap :=
  fun k' => if k' = k then some v else g k'

/-- The `u8` cast used when building chunk keys. -/
def toU8 (n : Nat) : Nat := n % 256

/-- The chunk-grid creation loops of `into_chunks`: insert an empty chunk at
`(x as u8, y as u8, z as u8)` for every grid coordinate. -/
def chunkGridInit (cx cy cz : Nat) (palette : List Color) : ChunkMap :=
  (List.range cx).foldl
    (fun acc a =>
      (List.range cy).foldl
        (fun acc2 b =>
          (List.range cz).foldl
            (fun acc3 cc => mapInsert acc3 (toU8 a, toU8 b, toU8 cc) (Chunk.new palette))
            acc2)
        acc)
    (fun _ => none)

/-- The block-placement loop body of `into_chunks`: integer-divide the voxel
coordinate by `CHUNK_SIZE`, look the chunk up (`unwrap`), and `set_block` the
local remainder (`unwrap`); `none` models either `unwrap` panicking. -/
def placeBlock (g : ChunkMap) (e : (Nat × Nat × Nat) × Block) : Option ChunkMap :=
  let x := e.1.1
  let y := e.1.2.1
  let z := e.1.2.2
  let chunk_x := x / CHUNK_SIZE
  let chunk_y := y / CHUNK_SIZE
  let chunk_z := z / CHUNK_SIZE
  let block_x := x - chunk_x * CHUNK_SIZE
  let block_y := y - chunk_y * CHUNK_SIZE
  let block_z := z - chunk_z * CHUNK_SIZE
  let key := (toU8 chunk_x, toU8 chunk_y, toU8 chunk_z)
  match g key with
  | none => none
  | some ch =>
    match ch.set_block e.2 block_x block_y block_z with
    | .error _ => none
    | .ok ch' => some (mapInsert g key ch')

/-- `VoxelModel::into_chunks()`.  The resulting `Vec<ChunkBundle>` is
collected from a `HashMap` in unspecified order, so the result is modelled
as the key → bundle map; each bundle pairs the chunk with the transform
`(key * CHUNK_SIZE) as f32 - (size / 2) as f32` per axis. -/
def VoxelModel.into_chunks (m : VoxelModel) : Option ((Nat × Nat × Nat) → Option ChunkBundle) := do
  let chunks_x_size := m.size.x / CHUNK_SIZE + 1
  let chunks_y_size := m.size.y / CHUNK_SIZE + 1
  let chunks_z_size := m.size.z / CHUNK_SIZE + 1
  let grid := chunkGridInit chunks_x_size chunks_y_size chunks_z_size m.palette
  let placed ← m.blocks.foldlM placeBlock grid
  return fun k =>
    (placed k).map fun ch =>
      ⟨ch,
       ⟨(((k.1 * CHUNK_SIZE : Nat) : Int) - ((m.size.x / 2 : Nat) : Int),
         ((k.2.1 * CHUNK_SIZE : Nat) : Int) - ((m.size.y / 2 : Nat) : Int),
         ((k.2.2 * CHUNK_SIZE : Nat) : Int) - ((m.size.z / 2 : Nat) : Int))⟩⟩

/-- Association-list lookup for the model's sparse block map. -/
def VoxelModel.blockAt (m : VoxelModel) (k : Nat × Nat × Nat) : Option Block :=
  (m.blocks.find? fun e => e.1 = k).map fun e => e.2

/-! ## TAA subsystem (`tracengine/src/renderer/hal/taa.rs`) -/

/-- `TaaConfig { canvas_width, canvas_height, jitter }`; the random `f32`
jitter is carried as an opaque code. -/
structure TaaConfig where
  canvas_width : Nat
  canvas_height : Nat
  jitter : Int
deriving DecidableEq, Repr

/-- `size_of::<TaaConfig>()`: two `u32` plus one `f32`. -/
def taaConfigByteSize : Nat := 12

/-- Opaque code of `TextureSampleType::Float { filterable: true }`. -/
def floatFilterableSampleType : Nat := 0

/-- The builder call sequence `Taa::new`/`Taa::update` use for the TAA
shader resource: history texture (TEXTURE | SAMPLER, float-filterable),
velocity storage buffer, config uniform buffer. -/
def taaBuildOps (history : Texture) (velocity : Buffer Vec4) (config : Buffer TaaConfig) :
    List BuildOp :=
  [.addTexture history ⟨⟨true, true, false⟩, some floatFilterableSampleType⟩,
   .addBuffer velocity.handle ⟨⟨false, true, true⟩, .storage false⟩,
   .addBuffer config.handle ⟨⟨true, true, true⟩, .uniform⟩]

/-- The TAA `ShaderResource` built from the given resource handles. -/
def mkTaaShaderResource (history : Texture) (velocity : Buffer Vec4)
    (config : Buffer TaaConfig) : Option ShaderResourceBuilder :=
  runBuilder (taaBuildOps history velocity config)

/-- `Taa`: render/history textures, velocity and config buffers, the built
shader resource, and the last jitter. -/
structure Taa where
  render_texture : Texture
  history_texture : Texture
  velocity_buffer : Buffer Vec4
  config_buffer : Buffer TaaConfig
  shader_resource : ShaderResourceBuilder
  current_jitter : Int

/-- `Taa::update(renderer)`.  `width`/`height` are the current
`renderer.size()` viewport and `jitter` the freshly sampled random value.
Fills the config buffer (the `expect` panic is modelled by `none`), resizes
each of render texture / history texture / velocity buffer whose dimensions
disagree with the viewport, and rebuilds the shader resource from the
current handles when any resize happened.  Returns the new state and the
recorded config write. -/
def Taa.update (taa : Taa) (width height : Nat) (jitter : Int) :
    Option (Taa × Option (WriteAction TaaConfig)) :=
  let taa_config : TaaConfig := ⟨width, height, jitter⟩
  match taa.config_buffer.fill_exact taaConfigByteSize 0 [taa_config] with
  | .error _ => none
  | .ok cw =>
    let renderMismatch :=
      taa.render_texture.description.width ≠ width ∨
        taa.render_texture.description.height ≠ height
    let render' :=
      if renderMismatch then taa.render_texture.resize width height else taa.render_texture
    let historyMismatch :=
      taa.history_texture.description.width ≠ width ∨
        taa.history_texture.description.height ≠ height
    let history' :=
      if historyMismatch then taa.history_texture.resize width height else taa.history_texture
    let viewport_size := width * height
    let velocityMismatch := taa.velocity_buffer.capacity ≠ viewport_size
    let velocity' :=
      if velocityMismatch then taa.velocity_buffer.resize viewport_size
      else taa.velocity_buffer
    let rebind_resources :=
      renderMismatch ∨ historyMismatch ∨ velocityMismatch
    if rebind_resources then
      match mkTaaShaderResource history' velocity' taa.config_buffer with
      | none => none
      | some sr =>
        some ({ render_texture := render', history_texture := history',
                velocity_buffer := velocity', config_buffer := taa.config_buffer,
                shader_resource := sr, current_jitter := jitter }, cw)
    else
      some ({ render_texture := render', history_texture := history',
              velocity_buffer := velocity', config_buffer := taa.config_buffer,
              shader_resource := taa.shader_resource, current_jitter := jitter }, cw)

/-! ### Specification-side description of the builder (claim language) -/

/-- Whether one builder call succeeds: `add_buffer` always does, and
`add_texture` panics exactly when a TEXTURE aspect is requested without a
sample type. -/
def BuildOp.ok : BuildOp → Bool
  | .addBuffer _ _ => true
  | .addTexture _ d => !(d.usage.textureFlag && d.sample_type.isNone)

/-- Whether a whole call sequence succeeds. -/
def allOk (ops : List BuildOp) : Bool := ops.all BuildOp.ok

/-- The layout entries one `add_texture` call appends when it succeeds, with
bindings `base`, `base + 1`, … in the fixed flag order TEXTURE, SAMPLER,
STORAGE. -/
def texLayoutAdds (base : Nat) (tex : Texture) (d : TextureResourceDescriptor) :
    List BindGroupLayoutEntry :=
  d.usage.flagList.enum.map fun pr =>
    match pr.2 with
    | .textureU =>
      ⟨base + pr.1, texAspectVisibility, .textureB (d.sample_type.getD 0) tex.description.dimension⟩
    | .samplerU => ⟨base + pr.1, samplerAspectVisibility, .samplerB⟩
    | .storageU =>
      ⟨base + pr.1, storageAspectVisibility,
        .storageTexture tex.description.format tex.description.dimension⟩

/-- The bind-group entries one `add_texture` call appends. -/
def texGroupAdds (base : Nat) (tex : Texture) (d : TextureResourceDescriptor) :
    List BindGroupEntry :=
  d.usage.flagList.enum.map fun pr => texGroupEntry (base + pr.1) tex pr.2

/-- The layout entries one builder call appends, starting at binding `base`. -/
def opLayoutAdds (base : Nat) : BuildOp → List BindGroupLayoutEntry
  | .addBuffer _ d => [⟨base, d.visibility, .bufferB d.buffer_type⟩]
  | .addTexture tex d => texLayoutAdds base tex d

/-- The bind-group entries one builder call appends, starting at binding
`base`. -/
def opGroupAdds (base : Nat) : BuildOp → List BindGroupEntry
  | .addBuffer h _ => [⟨base, .bufferRes h⟩]
  | .addTexture tex d => texGroupAdds base tex d

/-- Cumulative layout entries of a call sequence starting at binding `base`:
each call's entries start at the total slot count of the previous calls. -/
def specLayout (base : Nat) : List BuildOp → List BindGroupLayoutEntry
  | [] => []
  | op :: ops => opLayoutAdds base op ++ specLayout (base + op.slots) ops

/-- Cumulative bind-group entries of a call sequence starting at `base`. -/
def specGroup (base : Nat) : List BuildOp → List BindGroupEntry
  | [] => []
  | op :: ops => opGroupAdds base op ++ specGroup (base + op.slots) ops

/-- A small concrete builder call sequence: one uniform buffer, then a
texture with TEXTURE and SAMPLER aspects. -/
def sampleOps : List BuildOp :=
  [BuildOp.addBuffer 5 ⟨⟨true, false, false⟩, BufferBindingType.uniform⟩,
   BuildOp.addTexture ⟨9, ⟨1, 2, none, 0, TextureDimension.d2, 0, 7, 0⟩⟩
     ⟨⟨true, true, false⟩, some 3⟩]

/-- The builder state `sampleOps` produces. -/
def sampleBuilt : ShaderResourceBuilder :=
  ⟨[⟨0, ⟨true, false, false⟩, BindingType.bufferB BufferBindingType.uniform⟩,
    ⟨1, texAspectVisibility, BindingType.textureB 3 TextureDimension.d2⟩,
    ⟨2, samplerAspectVisibility, BindingType.samplerB⟩],
   [⟨0, BindingResource.bufferRes 5⟩, ⟨1, BindingResource.textureView 9⟩,
    ⟨2, BindingResource.samplerRes 9⟩]⟩

/-- A small concrete TAA state (4×4 resources, capacity-1 config buffer). -/
def sampleTaa : Taa :=
  ⟨⟨0, ⟨4, 4, none, 0, TextureDimension.d2, 0, 0, 0⟩⟩,
   ⟨1, ⟨4, 4, none, 0, TextureDimension.d2, 0, 0, 0⟩⟩,
   ⟨2, 16⟩, ⟨3, 1⟩, ⟨[], []⟩, 0⟩

/-- The chunk-grid coordinate of a voxel coordinate (claim language):
componentwise integer division by `CHUNK_SIZE`. -/
def chunkKeyOf (p : Nat × Nat × Nat) : Nat × Nat × Nat :=
  (p.1 / CHUNK_SIZE, p.2.1 / CHUNK_SIZE, p.2.2 / CHUNK_SIZE)

/-- Association-list lookup over block entry lists. -/
def assocLookup (entries : List ((Nat × Nat × Nat) × Block)) (k : Nat × Nat × Nat) :
    Option Block :=
  (entries.find? fun e => e.1 = k).map fun e => e.2

/-- The flat list of (possibly truncated) chunk-grid keys the grid-creation
loops of `into_chunks` insert. -/
def gridKeys (cx cy cz : Nat) : List (Nat × Nat × Nat) :=
  (List.range cx).flatMap fun a =>
    (List.range cy).flatMap fun b =>
      (List.range cz).map fun c => (toU8 a, toU8 b, toU8 c)

/-- The faces `generate_mesh` appends for one active block with resolved
color, concatenated in source order (front, back, left, right, bottom,
top). -/
def Chunk.implFaces (c : Chunk) (x y z : Nat) (color : Color) : List Vertex :=
  (if z = 0 || !c.check_block x y (z - 1) then front_face_data x y z color else []) ++
  ((if !c.check_block x y (z + 1) then back_face_data x y z color else []) ++
  ((if x = 0 || !c.check_block (x - 1) y z then left_face_data x y z color else []) ++
  ((if !c.check_block (x + 1) y z then right_face_data x y z color else []) ++
  ((if y = 0 || !c.check_block x (y - 1) z then bottom_face_data x y z color else []) ++
  (if !c.check_block x (y + 1) z then top_face_data x y z color else [])))))

/-- The vertex contribution of one loop iteration of `generate_mesh`:
`none` on the palette panic, `some []` for inactive or out-of-range
coordinates do not occur (the loop stays in range). -/
def Chunk.blockContrib (c : Chunk) (x y z : Nat) : Option (List Vertex) :=
  match c.get_block x y z with
  | none => none
  | some block =>
    if !block.active then some []
    else (c.palette[block.color_id]?).map (c.implFaces x y z)

/-! # Helper lemmas -/

/-- `fill_exact` errors exactly on oversized data. -/
theorem fill_exact_eq_error (elemSize : Nat) (b : Buffer α) (offset : Nat)
    (data : List α) (h : b.capacity < data.length) :
    b.fill_exact elemSize offset data = .error (.bufferOverflow data.length) := by
  unfold Buffer.fill_exact
  rw [if_pos (by omega)]

/-- `fill_exact` on empty data: success, no write. -/
theorem fill_exact_eq_ok_none (elemSize : Nat) (b : Buffer α) (offset : Nat) :
    b.fill_exact elemSize offset ([] : List α) = .ok none := by
  unfold Buffer.fill_exact
  simp

/-- `fill_exact` on fitting nonempty data: success, one write at byte offset
`offset * elemSize`. -/
theorem fill_exact_eq_ok_write (elemSize : Nat) (b : Buffer α) (offset : Nat)
    (data : List α) (hne : data ≠ []) (hle : data.length ≤ b.capacity) :
    b.fill_exact elemSize offset data =
      .ok (some ⟨b.handle, offset * elemSize, data⟩) := by
  unfold Buffer.fill_exact
  rw [if_neg (by omega), if_neg (by simpa [List.isEmpty_iff] using hne)]

/-- `fill_exact` succeeds iff the data fits the capacity. -/
theorem fill_exact_isOk_iff (elemSize : Nat) (b : Buffer α) (offset : Nat)
    (data : List α) :
    (b.fill_exact elemSize offset data).isOk = true ↔ data.length ≤ b.capacity := by
  by_cases hlt : b.capacity < data.length
  · rw [fill_exact_eq_error elemSize b offset data hlt]
    constructor
    · intro hf
      simp [Except.isOk, Except.toBool] at hf
    · intro hle
      omega
  · by_cases hemp : data = []
    · subst hemp
      rw [fill_exact_eq_ok_none]
      constructor
      · intro _
        exact Nat.zero_le _
      · intro _
        rfl
    · rw [fill_exact_eq_ok_write elemSize b offset data hemp (by omega)]
      constructor
      · intro _
        omega
      · intro _
        rfl

/-- The grow path of `fill`: fresh allocation of capacity `data.len()`, then
the write at the supplied offset. -/
theorem fill_grow_eq (elemSize : Nat) (b : Buffer α) (offset : Nat) (data : List α)
    (hsize : 0 < elemSize) (hgrow : b.capacity < data.length) :
    b.fill elemSize offset data =
      some (⟨b.handle + 1, data.length⟩,
        some ⟨b.handle + 1, offset * elemSize, data⟩) := by
  have hbytes : b.capacity * elemSize < data.length * elemSize :=
    Nat.mul_lt_mul_of_lt_of_le hgrow (Nat.le_refl _) hsize
  have hne : data ≠ [] := by
    intro h
    subst h
    simp at hgrow
  unfold Buffer.fill
  simp only [gt_iff_lt, hbytes, if_pos]
  rw [fill_exact_eq_ok_write elemSize (b.resize data.length) offset data hne
    (Nat.le_refl _)]
  rfl

/-- The in-place path of `fill`: no resize, write at the supplied offset. -/
theorem fill_fit_eq (elemSize : Nat) (b : Buffer α) (offset : Nat) (data : List α)
    (hne : data ≠ []) (hle : data.length ≤ b.capacity) :
    b.fill elemSize offset data =
      some (b, some ⟨b.handle, offset * elemSize, data⟩) := by
  have hnogrow : ¬ b.capacity * elemSize < data.length * elemSize :=
    Nat.not_lt.mpr (Nat.mul_le_mul_right _ hle)
  simp only [Buffer.fill, gt_iff_lt, if_neg hnogrow]
  rw [fill_exact_eq_ok_write elemSize b offset data hne hle]

/-! # Claim theorems -/

/-! ## C1: `fill_exact` bounds -/

/-- C1 counterexample.  The spec claims `fill_exact(offset, data)` succeeds
iff `offset + data.len() ≤ capacity`; the code only checks
`data.len() ≤ capacity` and ignores the offset.  With capacity 1, offset 5
and one element, `5 + 1 ≤ 1` fails yet the call succeeds (and issues the
write at byte offset `5 * size_of::<T>()`). -/
theorem c1_counterexample :
    Buffer.fill_exact 1 (⟨0, 1⟩ : Buffer Unit) 5 [()] = .ok (some ⟨0, 5, [()]⟩) ∧
      ¬ (5 + 1 ≤ 1) :=
  ⟨rfl, by decide⟩

/-- C1 (amended): `fill_exact(offset, data)` succeeds iff
`data.len() ≤ capacity` — the offset does not participate in the bound
check; on failure it returns `BufferOverflow(data.len())` and performs no
write, on empty data it succeeds and performs no write, and otherwise it
performs exactly one write of `data` at byte offset
`offset * size_of::<T>()`. -/
theorem c1_fill_exact (elemSize : Nat) (b : Buffer α) (offset : Nat) (data : List α) :
    ((b.fill_exact elemSize offset data).isOk = true ↔ data.length ≤ b.capacity) ∧
    (b.capacity < data.length →
      b.fill_exact elemSize offset data = .error (.bufferOverflow data.length)) ∧
    (data = [] → b.fill_exact elemSize offset data = .ok none) ∧
    (data ≠ [] → data.length ≤ b.capacity →
      b.fill_exact elemSize offset data = .ok (some ⟨b.handle, offset * elemSize, data⟩)) := by
  refine ⟨fill_exact_isOk_iff elemSize b offset data,
    fill_exact_eq_error elemSize b offset data, ?_,
    fill_exact_eq_ok_write elemSize b offset data⟩
  intro h
  subst h
  exact fill_exact_eq_ok_none elemSize b offset

/-- C1 witness: a concrete in-bounds write through `c1_fill_exact`. -/
theorem c1_fill_exact_witness :
    Buffer.fill_exact 1 (⟨7, 3⟩ : Buffer Unit) 2 [(), ()] = .ok (some ⟨7, 2, [(), ()]⟩) :=
  (c1_fill_exact 1 ⟨7, 3⟩ 2 [(), ()]).2.2.2 (by decide) (by decide)

/-! ## C2: `fill` grow path -/

/-- C2 counterexample.  The spec claims the growing `fill` writes at element
offset 0; the code passes the supplied offset straight through to
`fill_exact` after resizing.  Capacity 1, offset 3, two elements: the buffer
is reallocated (fresh handle 1, capacity 2) and the write lands at byte
offset `3 * size_of::<T>() = 3`, not 0. -/
theorem c2_counterexample :
    Buffer.fill 1 (⟨0, 1⟩ : Buffer Unit) 3 [(), ()] =
      some (⟨1, 2⟩, some ⟨1, 3, [(), ()]⟩) ∧ (3 : Nat) ≠ 0 :=
  ⟨rfl, by decide⟩

/-- C2 (amended): on the grow path (`data.len() > capacity`, element size
positive) `fill` reallocates the backing storage (fresh device handle,
discarding prior contents), sets the capacity to exactly `data.len()`, and
writes the data at the supplied element offset — the offset IS preserved
across the grow path, it is not reset to 0. -/
theorem c2_fill_grow (elemSize : Nat) (b : Buffer α) (offset : Nat) (data : List α)
    (hsize : 0 < elemSize) (hgrow : b.capacity < data.length) :
    b.fill elemSize offset data =
      some (⟨b.handle + 1, data.length⟩,
        some ⟨b.handle + 1, offset * elemSize, data⟩) ∧
    (⟨b.handle + 1, data.length⟩ : Buffer α).capacity = data.length ∧
    b.handle + 1 ≠ b.handle :=
  ⟨fill_grow_eq elemSize b offset data hsize hgrow, rfl, by omega⟩

/-- C2 witness: a concrete grow-path call through `c2_fill_grow`. -/
theorem c2_fill_grow_witness :
    Buffer.fill 1 (⟨5, 1⟩ : Buffer Unit) 2 [(), (), ()] =
      some (⟨6, 3⟩, some ⟨6, 2, [(), (), ()]⟩) :=
  (c2_fill_grow 1 ⟨5, 1⟩ 2 [(), (), ()] (by decide) (by decide)).1

/-! ## C10: `Renderer::update_vertex_buffer` -/

/-- C10: `update_vertex_buffer` returns `Ok` for every registered buffer id —
when the data fits it writes in place at offset 0, and when the data exceeds
the capacity it silently falls back to the growing `fill` path (fresh
allocation of capacity `data.len()`, write at offset 0) instead of surfacing
the `BufferOverflow`; it errors only for an unregistered id, leaving every
buffer untouched. -/
theorem c10_update_vertex_buffer (bufs : List (Buffer α)) (id : Nat) (data : List α) :
    (∀ h : id < bufs.length,
      (data.length ≤ (bufs.get ⟨id, h⟩).capacity →
        Renderer.update_vertex_buffer bufs id data =
          some (bufs,
            if data.isEmpty then none
            else some ⟨(bufs.get ⟨id, h⟩).handle, 0, data⟩, .ok ())) ∧
      ((bufs.get ⟨id, h⟩).capacity < data.length →
        Renderer.update_vertex_buffer bufs id data =
          some (bufs.set id ⟨(bufs.get ⟨id, h⟩).handle + 1, data.length⟩,
            some ⟨(bufs.get ⟨id, h⟩).handle + 1, 0, data⟩, .ok ()))) ∧
    (bufs.length ≤ id →
      Renderer.update_vertex_buffer bufs id data = some (bufs, none, .error ⟨id⟩)) := by
  constructor
  · intro h
    have hget : bufs[id]? = some (bufs.get ⟨id, h⟩) := by
      rw [List.getElem?_eq_getElem h]
      rfl
    constructor
    · intro hle
      by_cases hemp : data = []
      · subst hemp
        simp only [Renderer.update_vertex_buffer, hget,
          fill_exact_eq_ok_none vertexByteSize (bufs.get ⟨id, h⟩) 0]
        rfl
      · simp only [Renderer.update_vertex_buffer, hget,
          fill_exact_eq_ok_write vertexByteSize (bufs.get ⟨id, h⟩) 0 data hemp hle]
        simp [List.isEmpty_iff, hemp]
    · intro hlt
      simp only [Renderer.update_vertex_buffer, hget,
        fill_exact_eq_error vertexByteSize (bufs.get ⟨id, h⟩) 0 data hlt,
        fill_grow_eq vertexByteSize (bufs.get ⟨id, h⟩) 0 data (by decide) hlt,
        Nat.zero_mul]
  · intro h
    simp only [Renderer.update_vertex_buffer, List.getElem?_eq_none h]

/-- C10 witness: one registered buffer, oversized data, grow-path fallback
returns `Ok` through `c10_update_vertex_buffer`. -/
theorem c10_update_vertex_buffer_witness :
    Renderer.update_vertex_buffer [(⟨4, 1⟩ : Buffer Unit)] 0 [(), ()] =
      some ([⟨5, 2⟩], some ⟨5, 0, [(), ()]⟩, .ok ()) := by
  have h := ((c10_update_vertex_buffer [(⟨4, 1⟩ : Buffer Unit)] 0 [(), ()]).1
    (by decide)).2 (by decide)
  simpa using h

/-! ## C5 / C6: `Chunk::write_to_texture` validation and packing -/

/-- The four texture-contract preconditions of `write_to_texture`. -/
def writePreconds (t : Texture) (chunk_index : Nat) : Prop :=
  t.description.dimension = .d3 ∧
  (t.description.depth.getD 1) % CHUNK_SIZE = 0 ∧
  t.description.width = CHUNK_SIZE ∧
  t.description.height = CHUNK_SIZE ∧
  chunk_index < (t.description.depth.getD 1) / CHUNK_SIZE

instance (t : Texture) (i : Nat) : Decidable (writePreconds t i) := by
  unfold writePreconds
  infer_instance

/-- The texture upload `write_to_texture` records when the checks pass. -/
def chunkTexWrite (c : Chunk) (t : Texture) (chunk_index : Nat) : TexWriteAction :=
  ⟨t.handle, chunk_index * CHUNK_SIZE * CHUNK_SIZE * CHUNK_SIZE * 4, c.data_to_u8_slice⟩

/-- With all four preconditions, `write_to_texture` reduces to the palette
upload guarded by the texture write. -/
theorem wtt_valid_eq (c : Chunk) (t : Texture) (pb : Buffer Vec4) (idx : Nat)
    (h : writePreconds t idx) :
    c.write_to_texture t pb idx =
      match pb.fill_exact vec4ByteSize idx (c.palette.map Color.toVec4) with
      | .error _ => .crashed (chunkTexWrite c t idx)
      | .ok w => .ok (chunkTexWrite c t idx) w := by
  obtain ⟨h1, h2, h3, h4, h5⟩ := h
  simp only [Chunk.write_to_texture, chunkTexWrite]
  rw [if_neg (by simp [h1]), if_neg (by simp [h2]), if_neg (by simp [h3, h4]),
    if_neg (Nat.not_le.mpr h5)]

/-- With any precondition violated, `write_to_texture` returns a typed
error (and records no write). -/
theorem wtt_invalid_errored (c : Chunk) (t : Texture) (pb : Buffer Vec4) (idx : Nat)
    (h : ¬ writePreconds t idx) :
    (c.write_to_texture t pb idx).isErrored = true := by
  unfold writePreconds at h
  by_cases h1 : t.description.dimension = .d3
  · by_cases h2 : (t.description.depth.getD 1) % CHUNK_SIZE = 0
    · by_cases h3 : t.description.width = CHUNK_SIZE
      · by_cases h4 : t.description.height = CHUNK_SIZE
        · have h5 : (t.description.depth.getD 1) / CHUNK_SIZE ≤ idx := by
            rcases Nat.lt_or_ge idx ((t.description.depth.getD 1) / CHUNK_SIZE) with hl | hg
            · exact absurd ⟨h1, h2, h3, h4, hl⟩ h
            · exact hg
          simp only [Chunk.write_to_texture]
          rw [if_neg (by simp [h1]), if_neg (by simp [h2]), if_neg (by simp [h3, h4]),
            if_pos h5]
          rfl
        · simp only [Chunk.write_to_texture]
          rw [if_neg (by simp [h1]), if_neg (by simp [h2]), if_pos (Or.inr h4)]
          rfl
      · simp only [Chunk.write_to_texture]
        rw [if_neg (by simp [h1]), if_neg (by simp [h2]), if_pos (Or.inl h3)]
        rfl
    · simp only [Chunk.write_to_texture]
      rw [if_neg (by simp [h1]), if_pos h2]
      rfl
  · simp only [Chunk.write_to_texture]
    rw [if_pos h1]
    rfl

/-- C5 counterexample.  The spec claims `write_to_texture` returns `Ok`
whenever the four texture preconditions hold.  With a valid 32×32×32 3D
texture and `chunk_index = 0`, but a one-color palette and a zero-capacity
palette buffer, all four preconditions hold yet the trailing
`palettes_buffer.fill_exact(..).unwrap()` panics (after the texture write
has been issued), so the call does not return `Ok`. -/
theorem c5_counterexample :
    (Chunk.write_to_texture ⟨fun _ _ _ => ⟨false, 0⟩, [⟨0, 0, 0⟩]⟩
        ⟨0, ⟨32, 32, some 32, 0, .d3, 0, 0, 0⟩⟩ ⟨0, 0⟩ 0).isCrashed = true ∧
    (Chunk.write_to_texture ⟨fun _ _ _ => ⟨false, 0⟩, [⟨0, 0, 0⟩]⟩
        ⟨0, ⟨32, 32, some 32, 0, .d3, 0, 0, 0⟩⟩ ⟨0, 0⟩ 0).isOk = false ∧
    writePreconds ⟨0, ⟨32, 32, some 32, 0, .d3, 0, 0, 0⟩⟩ 0 :=
  ⟨rfl, rfl, by decide⟩

/-- C5 (amended): `write_to_texture` returns a typed `LoadChunkError` —
performing no GPU write — exactly when the texture's dimension is not 3D, or
its depth (default 1) is not a multiple of `CHUNK_SIZE`, or its width or
height differs from `CHUNK_SIZE`, or `chunk_index ≥ depth / CHUNK_SIZE`;
when all four preconditions hold it returns `Ok` provided the chunk's
palette fits the palette buffer (`palette.len() ≤ capacity`), and otherwise
the palette upload's `unwrap` panics after the texture write. -/
theorem c5_write_preconditions (c : Chunk) (t : Texture) (pb : Buffer Vec4) (idx : Nat) :
    ((c.write_to_texture t pb idx).isErrored = true ↔ ¬ writePreconds t idx) ∧
    (writePreconds t idx → c.palette.length ≤ pb.capacity →
      (c.write_to_texture t pb idx).isOk = true) ∧
    (writePreconds t idx → pb.capacity < c.palette.length →
      (c.write_to_texture t pb idx).isCrashed = true) := by
  refine ⟨⟨?_, wtt_invalid_errored c t pb idx⟩, ?_, ?_⟩
  · intro he hp
    rw [wtt_valid_eq c t pb idx hp] at he
    rcases hfe : pb.fill_exact vec4ByteSize idx (c.palette.map Color.toVec4) with e | w <;>
      rw [hfe] at he <;> simp [WriteOutcome.isErrored] at he
  · intro hp hle
    rw [wtt_valid_eq c t pb idx hp]
    by_cases hemp : c.palette.map Color.toVec4 = []
    · rw [hemp, fill_exact_eq_ok_none]
      rfl
    · rw [fill_exact_eq_ok_write vec4ByteSize pb idx _ hemp (by simpa using hle)]
      rfl
  · intro hp hlt
    rw [wtt_valid_eq c t pb idx hp]
    rw [fill_exact_eq_error vec4ByteSize pb idx _ (by simpa using hlt)]
    rfl

/-- C5 witness: a concrete rejected call (wrong dimension) and a concrete
accepted call through `c5_write_preconditions`. -/
theorem c5_write_preconditions_witness :
    ((Chunk.new []).write_to_texture ⟨3, ⟨32, 32, some 64, 0, .d2, 0, 0, 0⟩⟩ ⟨0, 4⟩ 1).isErrored
        = true ∧
    ((Chunk.new []).write_to_texture ⟨3, ⟨32, 32, some 64, 0, .d3, 0, 0, 0⟩⟩ ⟨0, 4⟩ 1).isOk
        = true :=
  ⟨(c5_write_preconditions (Chunk.new []) ⟨3, ⟨32, 32, some 64, 0, .d2, 0, 0, 0⟩⟩
      ⟨0, 4⟩ 1).1.mpr (by decide),
   (c5_write_preconditions (Chunk.new []) ⟨3, ⟨32, 32, some 64, 0, .d3, 0, 0, 0⟩⟩
      ⟨0, 4⟩ 1).2.1 (by decide) (by decide)⟩

/-- Indexing into a `flatMap` whose blocks all have length `k`: position
`k * i + j` falls into block `i` at inner position `j`. -/
theorem flatMap_fixed_get (l : List γ) (f : γ → List β) (k : Nat)
    (hk : ∀ a ∈ l, (f a).length = k) :
    ∀ (i j : Nat) (hi : i < l.length), j < k →
      (l.flatMap f)[k * i + j]? = (f (l.get ⟨i, hi⟩))[j]? := by
  induction l with
  | nil =>
    intro i j hi _
    cases hi
  | cons a t ih =>
    intro i j hi hj
    have hlen : (f a).length = k := hk a (by simp)
    cases i with
    | zero =>
      simp only [List.flatMap_cons, Nat.mul_zero, Nat.zero_add]
      rw [List.getElem?_append, if_pos (by omega)]
      rfl
    | succ n =>
      simp only [List.flatMap_cons]
      rw [List.getElem?_append, if_neg (by push_neg; calc
        (f a).length = k := hlen
        _ ≤ k * (n + 1) + j := by
          have : k * 1 ≤ k * (n + 1) := Nat.mul_le_mul_left k (by omega)
          omega)]
      have hsub : k * (n + 1) + j - (f a).length = k * n + j := by
        rw [hlen]
        have : k * (n + 1) = k * n + k := by ring
        omega
      rw [hsub]
      exact ih (fun b hb => hk b (by simp [hb])) n j (by simpa using hi) hj

/-- Length of a `flatMap` whose blocks all have length `k`. -/
theorem flatMap_fixed_length (l : List γ) (f : γ → List β) (k : Nat)
    (hk : ∀ a ∈ l, (f a).length = k) : (l.flatMap f).length = l.length * k := by
  induction l with
  | nil => simp
  | cons a t ih =>
    simp only [List.flatMap_cons, List.length_append, List.length_cons,
      hk a (by simp), ih (fun b hb => hk b (by simp [hb])), Nat.succ_mul]
    omega

/-- The packed buffer has exactly `CHUNK_SIZE³ * 4` bytes. -/
theorem data_to_u8_slice_length (c : Chunk) : c.data_to_u8_slice.length = 131072 := by
  unfold Chunk.data_to_u8_slice
  rw [flatMap_fixed_length _ _ 4096]
  · simp [CHUNK_SIZE]
  · intro a _
    rw [flatMap_fixed_length _ _ 128]
    · simp [CHUNK_SIZE]
    · intro b _
      rw [flatMap_fixed_length _ _ 4]
      · simp [CHUNK_SIZE]
      · intro d _
        rfl

/-- The four packed bytes of voxel `(x, y, z)` start at byte index
`4 * (x + CHUNK_SIZE * y + CHUNK_SIZE² * z)`. -/
theorem data_to_u8_slice_get (c : Chunk) (x y z r : Nat)
    (hx : x < CHUNK_SIZE) (hy : y < CHUNK_SIZE) (hz : z < CHUNK_SIZE) (hr : r < 4) :
    c.data_to_u8_slice[4 * (x + CHUNK_SIZE * y + CHUNK_SIZE ^ 2 * z) + r]? =
      [boolToU8 (c.blocks x y z).active, (c.blocks x y z).color_id, 0, 0][r]? := by
  have hx' : x < 32 := by simpa [CHUNK_SIZE] using hx
  have hy' : y < 32 := by simpa [CHUNK_SIZE] using hy
  have hz' : z < 32 := by simpa [CHUNK_SIZE] using hz
  unfold Chunk.data_to_u8_slice
  have hidx : 4 * (x + CHUNK_SIZE * y + CHUNK_SIZE ^ 2 * z) + r
      = 4096 * z + (128 * y + (4 * x + r)) := by
    simp only [CHUNK_SIZE]
    ring
  rw [hidx]
  have hk1 : ∀ a ∈ List.range CHUNK_SIZE,
      ((List.range CHUNK_SIZE).flatMap fun y' =>
        (List.range CHUNK_SIZE).flatMap fun x' =>
          [boolToU8 (c.blocks x' y' a).active, (c.blocks x' y' a).color_id, 0, 0]).length
        = 4096 := by
    intro a _
    rw [flatMap_fixed_length _ _ 128]
    · simp [CHUNK_SIZE]
    · intro b _
      rw [flatMap_fixed_length _ _ 4]
      · simp [CHUNK_SIZE]
      · intro d _
        rfl
  rw [flatMap_fixed_get _ _ 4096 hk1 z (128 * y + (4 * x + r))
    (by simpa [CHUNK_SIZE] using hz') (by omega)]
  have hgz : (List.range CHUNK_SIZE).get ⟨z, by simpa [CHUNK_SIZE] using hz'⟩ = z := by
    simp
  rw [hgz]
  have hk2 : ∀ a ∈ List.range CHUNK_SIZE,
      ((List.range CHUNK_SIZE).flatMap fun x' =>
        [boolToU8 (c.blocks x' a z).active, (c.blocks x' a z).color_id, 0, 0]).length
        = 128 := by
    intro a _
    rw [flatMap_fixed_length _ _ 4]
    · simp [CHUNK_SIZE]
    · intro d _
      rfl
  rw [flatMap_fixed_get _ _ 128 hk2 y (4 * x + r)
    (by simpa [CHUNK_SIZE] using hy') (by omega)]
  have hgy : (List.range CHUNK_SIZE).get ⟨y, by simpa [CHUNK_SIZE] using hy'⟩ = y := by
    simp
  rw [hgy]
  rw [flatMap_fixed_get _ _ 4 (by intro a _; rfl) x r
    (by simpa [CHUNK_SIZE] using hx') hr]
  have hgx : (List.range CHUNK_SIZE).get ⟨x, by simpa [CHUNK_SIZE] using hx'⟩ = x := by
    simp
  rw [hgx]

/-- An `Ok` outcome of `write_to_texture` always carries the canonical
texture write. -/
theorem wtt_ok_inv (c : Chunk) (t : Texture) (pb : Buffer Vec4) (idx : Nat)
    (tw : TexWriteAction) (pw : Option (WriteAction Vec4))
    (h : c.write_to_texture t pb idx = .ok tw pw) : tw = chunkTexWrite c t idx := by
  by_cases hp : writePreconds t idx
  · rw [wtt_valid_eq c t pb idx hp] at h
    rcases hfe : pb.fill_exact vec4ByteSize idx (c.palette.map Color.toVec4) with e | w <;>
      rw [hfe] at h
    · cases h
    · cases h
      rfl
  · have he := wtt_invalid_errored c t pb idx hp
    rw [h] at he
    simp [WriteOutcome.isErrored] at he

/-- C6: for every chunk, the packed byte buffer has exactly
`CHUNK_SIZE³ * 4` bytes, the 4 bytes of voxel `(x, y, z)` sit at index
`4 * (x + CHUNK_SIZE * y + CHUNK_SIZE² * z)` (x fastest, then y, then z) and
equal `(active-flag, palette-index, 0, 0)`, and any successful
`write_to_texture` uploads exactly this buffer at destination byte offset
`chunk_index * CHUNK_SIZE³ * 4`. -/
theorem c6_packed_layout (c : Chunk) (x y z : Nat)
    (hx : x < CHUNK_SIZE) (hy : y < CHUNK_SIZE) (hz : z < CHUNK_SIZE) :
    c.data_to_u8_slice.length = CHUNK_SIZE ^ 3 * 4 ∧
    c.data_to_u8_slice[4 * (x + CHUNK_SIZE * y + CHUNK_SIZE ^ 2 * z)]? =
      some (boolToU8 (c.blocks x y z).active) ∧
    c.data_to_u8_slice[4 * (x + CHUNK_SIZE * y + CHUNK_SIZE ^ 2 * z) + 1]? =
      some (c.blocks x y z).color_id ∧
    c.data_to_u8_slice[4 * (x + CHUNK_SIZE * y + CHUNK_SIZE ^ 2 * z) + 2]? = some 0 ∧
    c.data_to_u8_slice[4 * (x + CHUNK_SIZE * y + CHUNK_SIZE ^ 2 * z) + 3]? = some 0 ∧
    (∀ (t : Texture) (pb : Buffer Vec4) (idx : Nat) (tw : TexWriteAction)
      (pw : Option (WriteAction Vec4)), c.write_to_texture t pb idx = .ok tw pw →
        tw.byteOffset = idx * (CHUNK_SIZE ^ 3 * 4) ∧ tw.bytes = c.data_to_u8_slice ∧
        tw.textureHandle = t.handle) := by
  refine ⟨?_, ?_, ?_, ?_, ?_, ?_⟩
  · rw [data_to_u8_slice_length]
    simp [CHUNK_SIZE]
  · have h0 := data_to_u8_slice_get c x y z 0 hx hy hz (by decide)
    rw [Nat.add_zero] at h0
    simpa using h0
  · simpa using data_to_u8_slice_get c x y z 1 hx hy hz (by decide)
  · simpa using data_to_u8_slice_get c x y z 2 hx hy hz (by decide)
  · simpa using data_to_u8_slice_get c x y z 3 hx hy hz (by decide)
  · intro t pb idx tw pw h
    rw [wtt_ok_inv c t pb idx tw pw h]
    refine ⟨?_, rfl, rfl⟩
    simp only [chunkTexWrite, CHUNK_SIZE]
    ring

/-- C6 witness: the packed byte of voxel `(1, 2, 3)` of an empty chunk
through `c6_packed_layout`. -/
theorem c6_packed_layout_witness :
    (Chunk.new []).data_to_u8_slice[4 * (1 + CHUNK_SIZE * 2 + CHUNK_SIZE ^ 2 * 3)]? =
      some (boolToU8 ((Chunk.new []).blocks 1 2 3).active) :=
  (c6_packed_layout (Chunk.new []) 1 2 3 (by decide) (by decide) (by decide)).2.1

/-! ## C3: builder binding contiguity -/

/-- `add_texture` characterised: it panics iff a TEXTURE aspect lacks a
sample type, and otherwise appends the explicit flag-ordered entry lists. -/
theorem add_texture_char (b : ShaderResourceBuilder) (tex : Texture)
    (d : TextureResourceDescriptor) :
    b.add_texture tex d =
      if d.usage.textureFlag && d.sample_type.isNone then none
      else some
        ⟨b.bind_group_layout_entries ++
           texLayoutAdds b.bind_group_layout_entries.length tex d,
         b.bind_group_entries ++ texGroupAdds b.bind_group_entries.length tex d⟩ := by
  obtain ⟨⟨tf, sf, stf⟩, st⟩ := d
  cases tf <;> cases sf <;> cases stf <;> cases st <;> rfl

/-- One builder step characterised via the per-op entry lists. -/
theorem step_char (b : ShaderResourceBuilder) (op : BuildOp) :
    b.step op =
      if op.ok then some
        ⟨b.bind_group_layout_entries ++
           opLayoutAdds b.bind_group_layout_entries.length op,
         b.bind_group_entries ++ opGroupAdds b.bind_group_entries.length op⟩
      else none := by
  cases op with
  | addBuffer h d => rfl
  | addTexture tex d =>
    show b.add_texture tex d = _
    rw [add_texture_char]
    simp only [BuildOp.ok, opLayoutAdds, opGroupAdds, Bool.not_eq_true']
    rcases hb : d.usage.textureFlag && d.sample_type.isNone <;> simp [hb]

/-- The per-op layout entry list has exactly `slots` entries. -/
theorem opLayoutAdds_length (base : Nat) (op : BuildOp) :
    (opLayoutAdds base op).length = op.slots := by
  cases op with
  | addBuffer h d => rfl
  | addTexture tex d => simp [opLayoutAdds, texLayoutAdds, BuildOp.slots]

/-- The per-op bind-group entry list has exactly `slots` entries. -/
theorem opGroupAdds_length (base : Nat) (op : BuildOp) :
    (opGroupAdds base op).length = op.slots := by
  cases op with
  | addBuffer h d => rfl
  | addTexture tex d => simp [opGroupAdds, texGroupAdds, BuildOp.slots]

/-- Mapping an index-based projection over an `enumFrom`-built list yields a
contiguous index range. -/
theorem map_pj_enumFrom (l : List γ) (g : Nat × γ → β) (pj : β → Nat) (base : Nat)
    (h : ∀ pr, pj (g pr) = base + pr.1) :
    ∀ n, ((l.enumFrom n).map g).map pj = List.range' (base + n) l.length := by
  induction l with
  | nil =>
    intro n
    rfl
  | cons a t ih =>
    intro n
    simp only [List.enumFrom, List.map_cons, List.length_cons, List.range']
    rw [h (n, a), ih (n + 1), Nat.add_assoc]

/-- Mapping an index-based projection over an `enum`-built list yields the
range starting at `base`. -/
theorem map_pj_enum (l : List γ) (g : Nat × γ → β) (pj : β → Nat) (base : Nat)
    (h : ∀ pr, pj (g pr) = base + pr.1) :
    ((l.enum.map g).map pj) = List.range' base l.length := by
  have := map_pj_enumFrom l g pj base h 0
  simpa using this

/-- Bindings of the per-op layout entries: `base`, `base + 1`, …. -/
theorem opLayoutAdds_bindings (base : Nat) (op : BuildOp) :
    (opLayoutAdds base op).map BindGroupLayoutEntry.binding =
      List.range' base op.slots := by
  cases op with
  | addBuffer h d => rfl
  | addTexture tex d =>
    simp only [opLayoutAdds, texLayoutAdds, BuildOp.slots]
    exact map_pj_enum _ _ _ base fun pr => by
      rcases pr with ⟨i, fl⟩
      cases fl <;> rfl

/-- Bindings of the per-op bind-group entries: `base`, `base + 1`, …. -/
theorem opGroupAdds_bindings (base : Nat) (op : BuildOp) :
    (opGroupAdds base op).map BindGroupEntry.binding = List.range' base op.slots := by
  cases op with
  | addBuffer h d => rfl
  | addTexture tex d =>
    simp only [opGroupAdds, texGroupAdds, BuildOp.slots]
    exact map_pj_enum _ _ _ base fun pr => by
      rcases pr with ⟨i, fl⟩
      cases fl <;> rfl

/-- Binding `some` in the `Option` monad. -/
theorem option_some_bind (x : γ) (f : γ → Option β) : (some x >>= f) = f x := rfl

/-- Appending two pointwise-related list pairs. -/
theorem forall2_append (R : β → δ → Prop) {a₁ r₁ : List β} {a₂ r₂ : List δ}
    (h1 : List.Forall₂ R a₁ a₂) (h2 : List.Forall₂ R r₁ r₂) :
    List.Forall₂ R (a₁ ++ r₁) (a₂ ++ r₂) := by
  induction h1 with
  | nil => exact h2
  | cons h _ ih => exact .cons h ih

/-- Running the builder characterised: it succeeds iff every call is valid,
and then the accumulated entry lists are the cumulative per-op entry lists
based at the starting lengths. -/
theorem runFrom_char (ops : List BuildOp) : ∀ (b : ShaderResourceBuilder),
    b.bind_group_entries.length = b.bind_group_layout_entries.length →
    b.runFrom ops =
      if allOk ops then
        some ⟨b.bind_group_layout_entries ++
                specLayout b.bind_group_layout_entries.length ops,
              b.bind_group_entries ++ specGroup b.bind_group_entries.length ops⟩
      else none := by
  induction ops with
  | nil =>
    intro b hb
    simp [ShaderResourceBuilder.runFrom, allOk, specLayout, specGroup]
  | cons op ops ih =>
    intro b hb
    have hcons : b.runFrom (op :: ops) = b.step op >>= fun b' => b'.runFrom ops := rfl
    rw [hcons, step_char]
    by_cases hop : op.ok = true
    · rw [if_pos hop]
      have hlen2 :
          (b.bind_group_entries ++ opGroupAdds b.bind_group_entries.length op).length =
          (b.bind_group_layout_entries ++
            opLayoutAdds b.bind_group_layout_entries.length op).length := by
        simp [opGroupAdds_length, opLayoutAdds_length, hb]
      rw [option_some_bind]
      rw [ih _ hlen2]
      have hallcons : allOk (op :: ops) = (op.ok && allOk ops) := by
        simp [allOk]
      by_cases hall : allOk ops = true
      · rw [if_pos hall, if_pos (by simp [hallcons, hop, hall])]
        simp only [List.length_append, opLayoutAdds_length, opGroupAdds_length,
          specLayout, specGroup, List.append_assoc]
      · rw [if_neg hall, if_neg (by simp [hallcons, hall])]
    · rw [if_neg hop, if_neg (by simp [allOk, hop])]
      rfl

/-- Length of the cumulative layout entries. -/
theorem specLayout_length (ops : List BuildOp) :
    ∀ base, (specLayout base ops).length = slotCount ops := by
  induction ops with
  | nil =>
    intro base
    rfl
  | cons op ops ih =>
    intro base
    simp [specLayout, opLayoutAdds_length, ih, slotCount]

/-- Length of the cumulative bind-group entries. -/
theorem specGroup_length (ops : List BuildOp) :
    ∀ base, (specGroup base ops).length = slotCount ops := by
  induction ops with
  | nil =>
    intro base
    rfl
  | cons op ops ih =>
    intro base
    simp [specGroup, opGroupAdds_length, ih, slotCount]

/-- Bindings of the cumulative layout entries form the contiguous range
starting at `base`. -/
theorem specLayout_bindings (ops : List BuildOp) :
    ∀ base, (specLayout base ops).map BindGroupLayoutEntry.binding =
      List.range' base (slotCount ops) := by
  induction ops with
  | nil =>
    intro base
    rfl
  | cons op ops ih =>
    intro base
    have hsc : slotCount (op :: ops) = op.slots + slotCount ops := by
      simp [slotCount]
    rw [hsc, specLayout, List.map_append, opLayoutAdds_bindings, ih (base + op.slots),
      Nat.add_comm op.slots (slotCount ops)]
    simp

/-- Bindings of the cumulative bind-group entries form the contiguous range
starting at `base`. -/
theorem specGroup_bindings (ops : List BuildOp) :
    ∀ base, (specGroup base ops).map BindGroupEntry.binding =
      List.range' base (slotCount ops) := by
  induction ops with
  | nil =>
    intro base
    rfl
  | cons op ops ih =>
    intro base
    have hsc : slotCount (op :: ops) = op.slots + slotCount ops := by
      simp [slotCount]
    rw [hsc, specGroup, List.map_append, opGroupAdds_bindings, ih (base + op.slots),
      Nat.add_comm op.slots (slotCount ops)]
    simp

/-- Pointwise relation between two maps over the same list. -/
theorem forall2_map_map (l : List γ) (f : γ → β) (g : γ → δ) (R : β → δ → Prop)
    (h : ∀ a ∈ l, R (f a) (g a)) : List.Forall₂ R (l.map f) (l.map g) := by
  induction l with
  | nil => exact .nil
  | cons a t ih =>
    exact .cons (h a (by simp)) (ih fun a ha => h a (by simp [ha]))

/-- Each per-op layout entry matches the bind-group entry at the same
position: equal binding index and compatible kinds. -/
theorem opAdds_match (base : Nat) (op : BuildOp) :
    List.Forall₂ (fun le ge => le.binding = ge.binding ∧ entryMatches le.ty ge.resource)
      (opLayoutAdds base op) (opGroupAdds base op) := by
  cases op with
  | addBuffer h d => exact .cons ⟨rfl, trivial⟩ .nil
  | addTexture tex d =>
    refine forall2_map_map _ _ _ _ ?_
    intro pr _
    rcases pr with ⟨i, fl⟩
    cases fl <;> exact ⟨rfl, trivial⟩

/-- The cumulative layout and bind-group entries match pointwise. -/
theorem spec_match (ops : List BuildOp) :
    ∀ base, List.Forall₂
      (fun le ge => le.binding = ge.binding ∧ entryMatches le.ty ge.resource)
      (specLayout base ops) (specGroup base ops) := by
  induction ops with
  | nil =>
    intro base
    exact .nil
  | cons op ops ih =>
    intro base
    exact forall2_append _ (opAdds_match base op) (ih (base + op.slots))

/-- `all` is stable under `take`. -/
theorem all_take (p : γ → Bool) : ∀ (l : List γ), l.all p = true →
    ∀ n, (l.take n).all p = true := by
  intro l hl n
  rw [List.all_eq_true] at hl ⊢
  intro a ha
  exact hl a (List.mem_of_mem_take ha)

/-- Taking a prefix of the call sequence takes the corresponding prefix of
the cumulative layout entries. -/
theorem specLayout_take (ops : List BuildOp) : ∀ (n base : Nat),
    specLayout base (ops.take n) =
      (specLayout base ops).take (slotCount (ops.take n)) := by
  induction ops with
  | nil =>
    intro n base
    simp [specLayout, slotCount]
  | cons op ops ih =>
    intro n base
    cases n with
    | zero => simp [specLayout, slotCount]
    | succ m =>
      rw [List.take_succ_cons]
      have hsc : slotCount (op :: ops.take m) = op.slots + slotCount (ops.take m) := by
        simp [slotCount]
      rw [specLayout, specLayout, hsc, ih m (base + op.slots),
        ← opLayoutAdds_length base op]
      rw [List.take_append]

/-- Taking a prefix of the call sequence takes the corresponding prefix of
the cumulative bind-group entries. -/
theorem specGroup_take (ops : List BuildOp) : ∀ (n base : Nat),
    specGroup base (ops.take n) =
      (specGroup base ops).take (slotCount (ops.take n)) := by
  induction ops with
  | nil =>
    intro n base
    simp [specGroup, slotCount]
  | cons op ops ih =>
    intro n base
    cases n with
    | zero => simp [specGroup, slotCount]
    | succ m =>
      rw [List.take_succ_cons]
      have hsc : slotCount (op :: ops.take m) = op.slots + slotCount (ops.take m) := by
        simp [slotCount]
      rw [specGroup, specGroup, hsc, ih m (base + op.slots),
        ← opGroupAdds_length base op]
      rw [List.take_append]

/-- Dropping the slots of the first `n` calls leaves the cumulative layout
entries of the remaining calls, rebased at the cumulative count. -/
theorem specLayout_drop (ops : List BuildOp) : ∀ (n base : Nat),
    (specLayout base ops).drop (slotCount (ops.take n)) =
      specLayout (base + slotCount (ops.take n)) (ops.drop n) := by
  induction ops with
  | nil =>
    intro n base
    simp [specLayout, slotCount]
  | cons op ops ih =>
    intro n base
    cases n with
    | zero => simp [slotCount]
    | succ m =>
      rw [List.take_succ_cons, List.drop_succ_cons]
      have hsc : slotCount (op :: ops.take m) = op.slots + slotCount (ops.take m) := by
        simp [slotCount]
      rw [specLayout, hsc, ← opLayoutAdds_length base op, ← Nat.add_assoc,
        List.drop_append, opLayoutAdds_length base op]
      exact ih m (base + op.slots)

/-- Dropping the slots of the first `n` calls leaves the cumulative
bind-group entries of the remaining calls, rebased at the cumulative count. -/
theorem specGroup_drop (ops : List BuildOp) : ∀ (n base : Nat),
    (specGroup base ops).drop (slotCount (ops.take n)) =
      specGroup (base + slotCount (ops.take n)) (ops.drop n) := by
  induction ops with
  | nil =>
    intro n base
    simp [specGroup, slotCount]
  | cons op ops ih =>
    intro n base
    cases n with
    | zero => simp [slotCount]
    | succ m =>
      rw [List.take_succ_cons, List.drop_succ_cons]
      have hsc : slotCount (op :: ops.take m) = op.slots + slotCount (ops.take m) := by
        simp [slotCount]
      rw [specGroup, hsc, ← opGroupAdds_length base op, ← Nat.add_assoc,
        List.drop_append, opGroupAdds_length base op]
      exact ih m (base + op.slots)

/-- C3: for every successful `add_buffer`/`add_texture` sequence, the built
layout's binding indices are exactly `0, 1, …` (contiguous, no gaps or
duplicates), and so are the bound-resource indices; the entry lists have one
slot per buffer and one per declared texture usage flag; every prefix of
the sequence builds exactly the corresponding prefix of the entry lists, so
the `N`-th call's entries start at the total slot count of the previous
`N − 1` calls; each call's entries are the flag-ordered block
`opLayoutAdds`/`opGroupAdds` (TEXTURE, SAMPLER, STORAGE) based at that
cumulative count; and the bound resource at each index matches the layout
entry at the same index. -/
theorem c3_builder_contiguity (ops : List BuildOp) (r : ShaderResourceBuilder)
    (h : runBuilder ops = some r) :
    r.bind_group_layout_entries.length = slotCount ops ∧
    r.bind_group_entries.length = slotCount ops ∧
    r.bind_group_layout_entries.map BindGroupLayoutEntry.binding =
      List.range (slotCount ops) ∧
    r.bind_group_entries.map BindGroupEntry.binding = List.range (slotCount ops) ∧
    List.Forall₂ (fun le ge => le.binding = ge.binding ∧ entryMatches le.ty ge.resource)
      r.bind_group_layout_entries r.bind_group_entries ∧
    (∀ n, runBuilder (ops.take n) =
      some ⟨r.bind_group_layout_entries.take (slotCount (ops.take n)),
            r.bind_group_entries.take (slotCount (ops.take n))⟩) ∧
    (∀ (n : Nat) (op' : BuildOp), ops[n]? = some op' →
      (r.bind_group_layout_entries.drop (slotCount (ops.take n))).take op'.slots =
        opLayoutAdds (slotCount (ops.take n)) op' ∧
      (r.bind_group_entries.drop (slotCount (ops.take n))).take op'.slots =
        opGroupAdds (slotCount (ops.take n)) op') := by
  have hr := runFrom_char ops ShaderResourceBuilder.empty rfl
  unfold runBuilder at h
  rw [hr] at h
  by_cases hall : allOk ops = true
  · rw [if_pos hall] at h
    have hre : r = ⟨specLayout 0 ops, specGroup 0 ops⟩ := by
      cases h
      rfl
    subst hre
    refine ⟨specLayout_length ops 0, specGroup_length ops 0, ?_, ?_, spec_match ops 0,
      ?_, ?_⟩
    · rw [specLayout_bindings ops 0, List.range_eq_range']
    · rw [specGroup_bindings ops 0, List.range_eq_range']
    · intro n
      have hrn := runFrom_char (ops.take n) ShaderResourceBuilder.empty rfl
      unfold runBuilder
      rw [hrn, if_pos (show allOk (ops.take n) = true from all_take BuildOp.ok ops hall n)]
      simp only [ShaderResourceBuilder.empty, List.nil_append, List.length_nil]
      rw [specLayout_take ops n 0, specGroup_take ops n 0]
    · intro n op' hop
      have hn : n < ops.length := by
        by_contra hc
        rw [List.getElem?_eq_none (by omega)] at hop
        cases hop
      have hdropn : ops.drop n = op' :: ops.drop (n + 1) := by
        rw [List.drop_eq_getElem_cons hn]
        have : ops[n] = op' := by
          have := List.getElem?_eq_getElem hn
          rw [this] at hop
          cases hop
          rfl
        rw [this]
      constructor
      · show ((specLayout 0 ops).drop (slotCount (ops.take n))).take op'.slots = _
        rw [specLayout_drop ops n 0, Nat.zero_add, hdropn, specLayout,
          ← opLayoutAdds_length (slotCount (ops.take n)) op', List.take_left]
      · show ((specGroup 0 ops).drop (slotCount (ops.take n))).take op'.slots = _
        rw [specGroup_drop ops n 0, Nat.zero_add, hdropn, specGroup,
          ← opGroupAdds_length (slotCount (ops.take n)) op', List.take_left]
  · rw [if_neg hall] at h
    cases h

/-- C3 witness: a buffer followed by a TEXTURE|SAMPLER texture yields
bindings `[0, 1, 2]` through `c3_builder_contiguity`. -/
theorem c3_builder_contiguity_witness :
    sampleBuilt.bind_group_layout_entries.map BindGroupLayoutEntry.binding =
      List.range (slotCount sampleOps) :=
  (c3_builder_contiguity sampleOps sampleBuilt (by decide)).2.2.1

/-! ## C9: TAA update invariants -/

/-- The TAA shader resource always builds (the TEXTURE aspect carries a
sample type): the four flag-ordered bindings are the history texture view,
the history sampler, the velocity buffer and the config buffer. -/
theorem mkTaaShaderResource_eq (hist : Texture) (vel : Buffer Vec4)
    (cfg : Buffer TaaConfig) :
    mkTaaShaderResource hist vel cfg = some
      ⟨[⟨0, texAspectVisibility,
          .textureB floatFilterableSampleType hist.description.dimension⟩,
        ⟨1, samplerAspectVisibility, .samplerB⟩,
        ⟨2, ⟨false, true, true⟩, .bufferB (.storage false)⟩,
        ⟨3, ⟨true, true, true⟩, .bufferB .uniform⟩],
       [⟨0, .textureView hist.handle⟩, ⟨1, .samplerRes hist.handle⟩,
        ⟨2, .bufferRes vel.handle⟩, ⟨3, .bufferRes cfg.handle⟩]⟩ := rfl

/-- Selecting between a resized texture and an already matching one always
yields the viewport width. -/
theorem resize_sel_width (t : Texture) (w h : Nat) :
    (if t.description.width ≠ w ∨ t.description.height ≠ h
      then t.resize w h else t).description.width = w := by
  by_cases hc : t.description.width ≠ w ∨ t.description.height ≠ h
  · rw [if_pos hc]
    rfl
  · rw [if_neg hc]
    push_neg at hc
    exact hc.1

/-- Selecting between a resized texture and an already matching one always
yields the viewport height. -/
theorem resize_sel_height (t : Texture) (w h : Nat) :
    (if t.description.width ≠ w ∨ t.description.height ≠ h
      then t.resize w h else t).description.height = h := by
  by_cases hc : t.description.width ≠ w ∨ t.description.height ≠ h
  · rw [if_pos hc]
    rfl
  · rw [if_neg hc]
    push_neg at hc
    exact hc.2

/-- Selecting between a resized buffer and an already matching one always
yields the viewport pixel count. -/
theorem resize_sel_capacity (b : Buffer Vec4) (n : Nat) :
    (if b.capacity ≠ n then b.resize n else b).capacity = n := by
  by_cases hc : b.capacity ≠ n
  · rw [if_pos hc]
    rfl
  · rw [if_neg hc]
    push_neg at hc
    exact hc

/-- C9: after `Taa::update` returns, the render and history textures'
descriptor width/height equal the viewport and the velocity buffer's
capacity equals the viewport pixel count; the config buffer is untouched;
and if any of the three resources was out of date at entry (hence resized
during this update), the TAA shader resource returned is exactly the one
rebuilt from the post-resize history/velocity/config handles. -/
theorem c9_taa_update (taa : Taa) (width height : Nat) (jitter : Int)
    (hcfg : 1 ≤ taa.config_buffer.capacity) :
    ∃ taa' cw, taa.update width height jitter = some (taa', cw) ∧
      taa'.render_texture.description.width = width ∧
      taa'.render_texture.description.height = height ∧
      taa'.history_texture.description.width = width ∧
      taa'.history_texture.description.height = height ∧
      taa'.velocity_buffer.capacity = width * height ∧
      taa'.config_buffer = taa.config_buffer ∧
      ((taa.render_texture.description.width ≠ width ∨
        taa.render_texture.description.height ≠ height ∨
        taa.history_texture.description.width ≠ width ∨
        taa.history_texture.description.height ≠ height ∨
        taa.velocity_buffer.capacity ≠ width * height) →
        mkTaaShaderResource taa'.history_texture taa'.velocity_buffer taa'.config_buffer
          = some taa'.shader_resource) := by
  have hfe := fill_exact_eq_ok_write taaConfigByteSize taa.config_buffer 0
    [⟨width, height, jitter⟩] (by simp) (by simpa using hcfg)
  simp only [Taa.update, hfe]
  by_cases hreb : (taa.render_texture.description.width ≠ width ∨
      taa.render_texture.description.height ≠ height) ∨
      (taa.history_texture.description.width ≠ width ∨
      taa.history_texture.description.height ≠ height) ∨
      taa.velocity_buffer.capacity ≠ width * height
  · rw [if_pos hreb, mkTaaShaderResource_eq]
    refine ⟨_, _, rfl, resize_sel_width _ _ _, resize_sel_height _ _ _,
      resize_sel_width _ _ _, resize_sel_height _ _ _, resize_sel_capacity _ _,
      rfl, ?_⟩
    intro _
    exact mkTaaShaderResource_eq _ _ _
  · rw [if_neg hreb]
    refine ⟨_, _, rfl, resize_sel_width _ _ _, resize_sel_height _ _ _,
      resize_sel_width _ _ _, resize_sel_height _ _ _, resize_sel_capacity _ _,
      rfl, ?_⟩
    intro hbad
    push_neg at hreb
    obtain ⟨⟨hrw, hrh⟩, ⟨hhw, hhh⟩, hvc⟩ := hreb
    rcases hbad with h | h | h | h | h
    exacts [(h hrw).elim, (h hrh).elim, (h hhw).elim, (h hhh).elim, (h hvc).elim]

/-- C9 witness: a 4×4 TAA state updated to an 8×6 viewport through
`c9_taa_update`. -/
theorem c9_taa_update_witness :
    ∃ taa' cw, sampleTaa.update 8 6 5 = some (taa', cw) ∧
      taa'.render_texture.description.width = 8 ∧
      taa'.render_texture.description.height = 6 ∧
      taa'.history_texture.description.width = 8 ∧
      taa'.history_texture.description.height = 6 ∧
      taa'.velocity_buffer.capacity = 8 * 6 ∧
      taa'.config_buffer = sampleTaa.config_buffer ∧
      ((sampleTaa.render_texture.description.width ≠ 8 ∨
        sampleTaa.render_texture.description.height ≠ 6 ∨
        sampleTaa.history_texture.description.width ≠ 8 ∨
        sampleTaa.history_texture.description.height ≠ 6 ∨
        sampleTaa.velocity_buffer.capacity ≠ 8 * 6) →
        mkTaaShaderResource taa'.history_texture taa'.velocity_buffer taa'.config_buffer
          = some taa'.shader_resource) :=
  c9_taa_update sampleTaa 8 6 5 (by decide)

/-! ## C7 / C8: voxel-model chunk partition -/

/-- Folding a step over a `flatMap` folds blockwise. -/
theorem foldl_flatMap (l : List γ) (f : γ → List δ) (step : ChunkMap → δ → ChunkMap) :
    ∀ g, (l.flatMap f).foldl step g = l.foldl (fun acc a => (f a).foldl step acc) g := by
  induction l with
  | nil =>
    intro g
    rfl
  | cons a t ih =>
    intro g
    simp only [List.flatMap_cons, List.foldl_append, List.foldl_cons]
    exact ih _

/-- Looking up after folding a list of same-value insertions. -/
theorem foldl_mapInsert_lookup (v : Chunk) :
    ∀ (keys : List (Nat × Nat × Nat)) (g : ChunkMap) (k : Nat × Nat × Nat),
    (keys.foldl (fun acc key => mapInsert acc key v) g) k =
      if k ∈ keys then some v else g k := by
  intro keys
  induction keys with
  | nil =>
    intro g k
    simp
  | cons a t ih =>
    intro g k
    rw [List.foldl_cons, ih]
    by_cases ht : k ∈ t
    · rw [if_pos ht, if_pos (by simp [ht])]
    · rw [if_neg ht]
      by_cases ha : k = a
      · rw [if_pos (by simp [ha]), mapInsert, if_pos ha]
      · rw [if_neg (by simp [ha, ht]), mapInsert, if_neg ha]

/-- The grid-creation loops are the flat fold over `gridKeys`. -/
theorem chunkGridInit_eq_foldl (cx cy cz : Nat) (pal : List Color) :
    chunkGridInit cx cy cz pal =
      (gridKeys cx cy cz).foldl
        (fun acc key => mapInsert acc key (Chunk.new pal)) (fun _ => none) := by
  unfold chunkGridInit gridKeys
  simp only [foldl_flatMap, List.foldl_map]

/-- Membership in `gridKeys` under the no-truncation bound. -/
theorem mem_gridKeys (cx cy cz : Nat) (hcx : cx ≤ 256) (hcy : cy ≤ 256) (hcz : cz ≤ 256)
    (k : Nat × Nat × Nat) :
    k ∈ gridKeys cx cy cz ↔ k.1 < cx ∧ k.2.1 < cy ∧ k.2.2 < cz := by
  rcases k with ⟨a, b, c⟩
  simp only [gridKeys, List.mem_flatMap, List.mem_map, List.mem_range]
  constructor
  · rintro ⟨a', ha', b', hb', c', hc', heq⟩
    have ha256 : a' % 256 = a' := Nat.mod_eq_of_lt (by omega)
    have hb256 : b' % 256 = b' := Nat.mod_eq_of_lt (by omega)
    have hc256 : c' % 256 = c' := Nat.mod_eq_of_lt (by omega)
    simp only [toU8, ha256, hb256, hc256, Prod.mk.injEq] at heq
    obtain ⟨h1, h2, h3⟩ := heq
    subst h1
    subst h2
    subst h3
    exact ⟨ha', hb', hc'⟩
  · rintro ⟨ha, hb, hc⟩
    refine ⟨a, ha, b, hb, c, hc, ?_⟩
    simp only [toU8, Nat.mod_eq_of_lt (show a < 256 by omega),
      Nat.mod_eq_of_lt (show b < 256 by omega), Nat.mod_eq_of_lt (show c < 256 by omega)]

/-- Pointwise characterisation of the chunk-grid creation. -/
theorem chunkGridInit_char (cx cy cz : Nat) (pal : List Color)
    (hcx : cx ≤ 256) (hcy : cy ≤ 256) (hcz : cz ≤ 256) (k : Nat × Nat × Nat) :
    chunkGridInit cx cy cz pal k =
      if k.1 < cx ∧ k.2.1 < cy ∧ k.2.2 < cz then some (Chunk.new pal) else none := by
  rw [chunkGridInit_eq_foldl, foldl_mapInsert_lookup]
  by_cases hm : k ∈ gridKeys cx cy cz
  · rw [if_pos hm, if_pos ((mem_gridKeys cx cy cz hcx hcy hcz k).mp hm)]
  · rw [if_neg hm,
      if_neg (fun hc => hm ((mem_gridKeys cx cy cz hcx hcy hcz k).mpr hc))]

/-- Arithmetic: decomposing a coordinate as `chunk * CHUNK_SIZE + local`
recovers the chunk key. -/
theorem chunkKeyOf_mul_add (k : Nat × Nat × Nat) (a b c : Nat)
    (ha : a < CHUNK_SIZE) (hb : b < CHUNK_SIZE) (hc : c < CHUNK_SIZE) :
    chunkKeyOf (k.1 * CHUNK_SIZE + a, k.2.1 * CHUNK_SIZE + b, k.2.2 * CHUNK_SIZE + c) = k := by
  rcases k with ⟨k1, k2, k3⟩
  simp only [CHUNK_SIZE] at ha hb hc
  simp only [chunkKeyOf, CHUNK_SIZE, Prod.mk.injEq]
  refine ⟨?_, ?_, ?_⟩ <;> omega

/-- One placement step characterised: the chunk at the voxel's grid key gets
its block function overridden at the componentwise remainder. -/
theorem placeBlock_eq (g : ChunkMap) (e : (Nat × Nat × Nat) × Block) (ch : Chunk)
    (h256 : e.1.1 < 256 ∧ e.1.2.1 < 256 ∧ e.1.2.2 < 256)
    (hch : g (chunkKeyOf e.1) = some ch) :
    placeBlock g e = some (mapInsert g (chunkKeyOf e.1)
      ⟨fun a b c =>
        if a = e.1.1 % CHUNK_SIZE ∧ b = e.1.2.1 % CHUNK_SIZE ∧ c = e.1.2.2 % CHUNK_SIZE
        then e.2 else ch.blocks a b c, ch.palette⟩) := by
  obtain ⟨hx, hy, hz⟩ := h256
  have hkey : (toU8 (e.1.1 / CHUNK_SIZE), toU8 (e.1.2.1 / CHUNK_SIZE),
      toU8 (e.1.2.2 / CHUNK_SIZE)) = chunkKeyOf e.1 := by
    simp only [toU8, chunkKeyOf, CHUNK_SIZE, Prod.mk.injEq]
    refine ⟨?_, ?_, ?_⟩ <;> omega
  have hbx : e.1.1 - e.1.1 / CHUNK_SIZE * CHUNK_SIZE = e.1.1 % CHUNK_SIZE := by
    simp only [CHUNK_SIZE]
    omega
  have hby : e.1.2.1 - e.1.2.1 / CHUNK_SIZE * CHUNK_SIZE = e.1.2.1 % CHUNK_SIZE := by
    simp only [CHUNK_SIZE]
    omega
  have hbz : e.1.2.2 - e.1.2.2 / CHUNK_SIZE * CHUNK_SIZE = e.1.2.2 % CHUNK_SIZE := by
    simp only [CHUNK_SIZE]
    omega
  simp only [placeBlock, hkey, hbx, hby, hbz, hch]
  have hlt : ¬ (e.1.1 % CHUNK_SIZE ≥ CHUNK_SIZE ∨ e.1.2.1 % CHUNK_SIZE ≥ CHUNK_SIZE ∨
      e.1.2.2 % CHUNK_SIZE ≥ CHUNK_SIZE) := by
    simp only [CHUNK_SIZE]
    omega
  simp only [Chunk.set_block, if_neg hlt]

/-- `assocLookup` on a cons. -/
theorem assocLookup_cons (e : (Nat × Nat × Nat) × Block)
    (rest : List ((Nat × Nat × Nat) × Block)) (k : Nat × Nat × Nat) :
    assocLookup (e :: rest) k = if e.1 = k then some e.2 else assocLookup rest k := by
  by_cases he : e.1 = k
  · simp [assocLookup, List.find?_cons, he]
  · simp [assocLookup, List.find?_cons, he]

/-- `assocLookup` misses keys that are not in the list. -/
theorem assocLookup_eq_none (rest : List ((Nat × Nat × Nat) × Block))
    (k : Nat × Nat × Nat) (h : k ∉ rest.map fun e => e.1) : assocLookup rest k = none := by
  have hf : rest.find? (fun e => decide (e.1 = k)) = none := by
    rw [List.find?_eq_none]
    intro a ha
    simp only [decide_eq_true_eq]
    intro hk
    exact h (List.mem_map.mpr ⟨a, ha, hk⟩)
  simp [assocLookup, hf]

/-- The placement fold characterised: it never panics when every entry's
chunk key is populated, it creates or removes no chunks, and the resulting
chunk at grid key `k` holds, at local coordinate `(a, b, c)`, the entry
block at global coordinate `k * CHUNK_SIZE + (a, b, c)` when one exists and
the pre-fold block otherwise. -/
theorem place_fold (entries : List ((Nat × Nat × Nat) × Block)) :
    ∀ g : ChunkMap,
    (∀ e ∈ entries, (e.1.1 < 256 ∧ e.1.2.1 < 256 ∧ e.1.2.2 < 256) ∧
      (g (chunkKeyOf e.1)).isSome = true) →
    (entries.map fun e => e.1).Nodup →
    ∃ g', entries.foldlM placeBlock g = some g' ∧
      (∀ k, (g' k).isSome = (g k).isSome) ∧
      (∀ k ch', g' k = some ch' → ∃ ch, g k = some ch ∧ ch'.palette = ch.palette ∧
        ∀ a b c, a < CHUNK_SIZE → b < CHUNK_SIZE → c < CHUNK_SIZE →
          ch'.blocks a b c =
            (assocLookup entries
              (k.1 * CHUNK_SIZE + a, k.2.1 * CHUNK_SIZE + b,
                k.2.2 * CHUNK_SIZE + c)).getD (ch.blocks a b c)) := by
  induction entries with
  | nil =>
    intro g _ _
    exact ⟨g, rfl, fun k => rfl, fun k ch' h => ⟨ch', h, rfl, fun a b c _ _ _ => rfl⟩⟩
  | cons e rest ih =>
    intro g hwf hnodup
    obtain ⟨h256, hsome⟩ := hwf e (by simp)
    obtain ⟨ch₀, hch₀⟩ := Option.isSome_iff_exists.mp hsome
    have hstep := placeBlock_eq g e ch₀ h256 hch₀
    have hfold : (e :: rest).foldlM placeBlock g =
        rest.foldlM placeBlock (mapInsert g (chunkKeyOf e.1)
          ⟨fun a b c =>
            if a = e.1.1 % CHUNK_SIZE ∧ b = e.1.2.1 % CHUNK_SIZE ∧
              c = e.1.2.2 % CHUNK_SIZE
            then e.2 else ch₀.blocks a b c, ch₀.palette⟩) := by
      have h1 : (e :: rest).foldlM placeBlock g =
          placeBlock g e >>= fun g₁ => rest.foldlM placeBlock g₁ := rfl
      rw [h1, hstep, option_some_bind]
    rw [List.map_cons] at hnodup
    obtain ⟨hKeyNotIn, hrestNodup⟩ := List.nodup_cons.mp hnodup
    have hwf' : ∀ e' ∈ rest, (e'.1.1 < 256 ∧ e'.1.2.1 < 256 ∧ e'.1.2.2 < 256) ∧
        ((mapInsert g (chunkKeyOf e.1)
          ⟨fun a b c =>
            if a = e.1.1 % CHUNK_SIZE ∧ b = e.1.2.1 % CHUNK_SIZE ∧
              c = e.1.2.2 % CHUNK_SIZE
            then e.2 else ch₀.blocks a b c, ch₀.palette⟩) (chunkKeyOf e'.1)).isSome
            = true := by
      intro e' he'
      obtain ⟨hb, hs⟩ := hwf e' (by simp [he'])
      refine ⟨hb, ?_⟩
      by_cases hk : chunkKeyOf e'.1 = chunkKeyOf e.1
      · simp [mapInsert, hk]
      · simp [mapInsert, hk, hs]
    obtain ⟨g', hfold', hsome', hchar'⟩ := ih _ hwf' hrestNodup
    refine ⟨g', by rw [hfold, hfold'], ?_, ?_⟩
    · intro k
      rw [hsome' k]
      by_cases hk : k = chunkKeyOf e.1
      · subst hk
        simp [mapInsert, hch₀]
      · simp [mapInsert, hk]
    · intro k ch' hgk
      obtain ⟨ch₁, hch₁, hpal, hblocks⟩ := hchar' k ch' hgk
      by_cases hk : k = chunkKeyOf e.1
      · subst hk
        have hch₁e : ch₁ = ⟨fun a b c =>
            if a = e.1.1 % CHUNK_SIZE ∧ b = e.1.2.1 % CHUNK_SIZE ∧
              c = e.1.2.2 % CHUNK_SIZE
            then e.2 else ch₀.blocks a b c, ch₀.palette⟩ := by
          have : (mapInsert g (chunkKeyOf e.1) _ : ChunkMap) (chunkKeyOf e.1) = _ := hch₁
          simpa [mapInsert] using hch₁.symm
        refine ⟨ch₀, hch₀, by rw [hpal, hch₁e], ?_⟩
        intro a b c ha hb hc
        rw [hblocks a b c ha hb hc, hch₁e, assocLookup_cons]
        by_cases hek : e.1 = ((chunkKeyOf e.1).1 * CHUNK_SIZE + a,
            (chunkKeyOf e.1).2.1 * CHUNK_SIZE + b, (chunkKeyOf e.1).2.2 * CHUNK_SIZE + c)
        · rw [if_pos hek]
          have hnone : assocLookup rest ((chunkKeyOf e.1).1 * CHUNK_SIZE + a,
              (chunkKeyOf e.1).2.1 * CHUNK_SIZE + b,
              (chunkKeyOf e.1).2.2 * CHUNK_SIZE + c) = none := by
            apply assocLookup_eq_none
            rw [← hek]
            exact hKeyNotIn
          rw [hnone]
          have hcond : a = e.1.1 % CHUNK_SIZE ∧ b = e.1.2.1 % CHUNK_SIZE ∧
              c = e.1.2.2 % CHUNK_SIZE := by
            rcases e with ⟨⟨x, y, z⟩, blk⟩
            simp only [chunkKeyOf, CHUNK_SIZE, Prod.mk.injEq] at hek
            simp only [CHUNK_SIZE] at ha hb hc ⊢
            obtain ⟨hex, hey, hez⟩ := hek
            refine ⟨?_, ?_, ?_⟩ <;> omega
          simp only [Option.getD_none, Option.getD_some, if_pos hcond]
        · rw [if_neg hek]
          rcases hl : assocLookup rest ((chunkKeyOf e.1).1 * CHUNK_SIZE + a,
              (chunkKeyOf e.1).2.1 * CHUNK_SIZE + b,
              (chunkKeyOf e.1).2.2 * CHUNK_SIZE + c) with _ | blk
          · simp only [Option.getD_none]
            have hcond : ¬ (a = e.1.1 % CHUNK_SIZE ∧ b = e.1.2.1 % CHUNK_SIZE ∧
                c = e.1.2.2 % CHUNK_SIZE) := by
              intro hcond
              apply hek
              rcases e with ⟨⟨x, y, z⟩, blk'⟩
              obtain ⟨hca, hcb, hcc⟩ := hcond
              simp only [chunkKeyOf, CHUNK_SIZE, Prod.mk.injEq]
              simp only at hca hcb hcc
              simp only [CHUNK_SIZE] at hca hcb hcc
              refine ⟨?_, ?_, ?_⟩ <;> omega
            rw [if_neg hcond]
          · simp only [Option.getD_some]
      · have hch₁g : g k = some ch₁ := by
          simpa [mapInsert, hk] using hch₁
        refine ⟨ch₁, hch₁g, hpal, ?_⟩
        intro a b c ha hb hc
        rw [hblocks a b c ha hb hc, assocLookup_cons]
        have hek : ¬ e.1 = (k.1 * CHUNK_SIZE + a, k.2.1 * CHUNK_SIZE + b,
            k.2.2 * CHUNK_SIZE + c) := by
          intro hcontra
          apply hk
          have := chunkKeyOf_mul_add k a b c ha hb hc
          rw [← hcontra] at this
          exact this.symm
        rw [if_neg hek]

/-- Full characterisation of `into_chunks` for a well-formed model: it
returns the dense chunk grid, each chunk holds exactly the model's blocks at
its `CHUNK_SIZE`-aligned window (default-inactive elsewhere), shares the
model's palette, and carries the centred transform. -/
theorem into_chunks_char (m : VoxelModel)
    (hkeys : ∀ e ∈ m.blocks, e.1.1 < m.size.x ∧ e.1.2.1 < m.size.y ∧ e.1.2.2 < m.size.z)
    (h256 : ∀ e ∈ m.blocks, e.1.1 < 256 ∧ e.1.2.1 < 256 ∧ e.1.2.2 < 256)
    (hdims : m.size.x / CHUNK_SIZE + 1 ≤ 256 ∧ m.size.y / CHUNK_SIZE + 1 ≤ 256 ∧
      m.size.z / CHUNK_SIZE + 1 ≤ 256)
    (hnodup : (m.blocks.map fun e => e.1).Nodup) :
    ∃ f, m.into_chunks = some f ∧
      (∀ k, (f k).isSome = true ↔
        (k.1 < m.size.x / CHUNK_SIZE + 1 ∧ k.2.1 < m.size.y / CHUNK_SIZE + 1 ∧
          k.2.2 < m.size.z / CHUNK_SIZE + 1)) ∧
      (∀ k bundle, f k = some bundle → bundle.chunk.palette = m.palette ∧
        ∀ a b c, a < CHUNK_SIZE → b < CHUNK_SIZE → c < CHUNK_SIZE →
          bundle.chunk.blocks a b c =
            (m.blockAt (k.1 * CHUNK_SIZE + a, k.2.1 * CHUNK_SIZE + b,
              k.2.2 * CHUNK_SIZE + c)).getD ⟨false, 0⟩) ∧
      (∀ k bundle, f k = some bundle →
        bundle.transform.translation =
          (((k.1 * CHUNK_SIZE : Nat) : Int) - ((m.size.x / 2 : Nat) : Int),
           ((k.2.1 * CHUNK_SIZE : Nat) : Int) - ((m.size.y / 2 : Nat) : Int),
           ((k.2.2 * CHUNK_SIZE : Nat) : Int) - ((m.size.z / 2 : Nat) : Int))) := by
  obtain ⟨hdx, hdy, hdz⟩ := hdims
  have hgrid := chunkGridInit_char (m.size.x / CHUNK_SIZE + 1) (m.size.y / CHUNK_SIZE + 1)
    (m.size.z / CHUNK_SIZE + 1) m.palette hdx hdy hdz
  have hwf : ∀ e ∈ m.blocks, (e.1.1 < 256 ∧ e.1.2.1 < 256 ∧ e.1.2.2 < 256) ∧
      ((chunkGridInit (m.size.x / CHUNK_SIZE + 1) (m.size.y / CHUNK_SIZE + 1)
        (m.size.z / CHUNK_SIZE + 1) m.palette) (chunkKeyOf e.1)).isSome = true := by
    intro e he
    refine ⟨h256 e he, ?_⟩
    obtain ⟨hex, hey, hez⟩ := hkeys e he
    rw [hgrid]
    rw [if_pos ?_]
    · rfl
    · refine ⟨?_, ?_, ?_⟩ <;> simp only [chunkKeyOf] <;>
        exact Nat.lt_succ_of_le (Nat.div_le_div_right (by omega))
  obtain ⟨g', hfold, hsome, hchar⟩ := place_fold m.blocks _ hwf hnodup
  have hinto : m.into_chunks = some (fun k => (g' k).map fun ch =>
      ⟨ch,
       ⟨((k.1 * CHUNK_SIZE : Nat) : Int) - ((m.size.x / 2 : Nat) : Int),
        ((k.2.1 * CHUNK_SIZE : Nat) : Int) - ((m.size.y / 2 : Nat) : Int),
        ((k.2.2 * CHUNK_SIZE : Nat) : Int) - ((m.size.z / 2 : Nat) : Int)⟩⟩) := by
    simp only [VoxelModel.into_chunks]
    rw [hfold, option_some_bind]
    rfl
  have hmap_isSome : ∀ (o : Option Chunk) (fn : Chunk → ChunkBundle),
      (o.map fn).isSome = o.isSome := by
    intro o fn
    cases o <;> rfl
  refine ⟨_, hinto, ?_, ?_, ?_⟩
  · intro k
    rw [hmap_isSome, hsome k, hgrid]
    by_cases hc : k.1 < m.size.x / CHUNK_SIZE + 1 ∧ k.2.1 < m.size.y / CHUNK_SIZE + 1 ∧
        k.2.2 < m.size.z / CHUNK_SIZE + 1
    · rw [if_pos hc]
      simp [hc]
    · rw [if_neg hc]
      simp [hc]
  · intro k bundle hb
    simp only [Option.map_eq_some'] at hb
    obtain ⟨ch', hch', rfl⟩ := hb
    obtain ⟨ch, hgk, hpal, hblocks⟩ := hchar k ch' hch'
    rw [hgrid] at hgk
    by_cases hc : k.1 < m.size.x / CHUNK_SIZE + 1 ∧ k.2.1 < m.size.y / CHUNK_SIZE + 1 ∧
        k.2.2 < m.size.z / CHUNK_SIZE + 1
    · rw [if_pos hc] at hgk
      have hch : ch = Chunk.new m.palette := by
        cases hgk
        rfl
      subst hch
      refine ⟨hpal, ?_⟩
      intro a b c ha hb' hc'
      rw [hblocks a b c ha hb' hc']
      rfl
    · rw [if_neg hc] at hgk
      cases hgk
  · intro k bundle hb
    simp only [Option.map_eq_some'] at hb
    obtain ⟨ch', hch', rfl⟩ := hb
    rfl

/-- C7: for a well-formed voxel model (keys inside `size` and the `u8`
domain, no duplicate keys, grid dimensions below the `u8` cast bound),
`into_chunks` succeeds; chunks exist exactly at the dense grid
`size / CHUNK_SIZE + 1` per axis (empty ones included); and the chunk at
grid key `k` holds, at every local `(a, b, c)`, exactly the model's block at
global coordinate `k * CHUNK_SIZE + (a, b, c)` — default-inactive when the
model has no voxel there — so no coordinate is lost, duplicated or
misassigned. -/
theorem c7_partition (m : VoxelModel)
    (hkeys : ∀ e ∈ m.blocks, e.1.1 < m.size.x ∧ e.1.2.1 < m.size.y ∧ e.1.2.2 < m.size.z)
    (h256 : ∀ e ∈ m.blocks, e.1.1 < 256 ∧ e.1.2.1 < 256 ∧ e.1.2.2 < 256)
    (hdims : m.size.x / CHUNK_SIZE + 1 ≤ 256 ∧ m.size.y / CHUNK_SIZE + 1 ≤ 256 ∧
      m.size.z / CHUNK_SIZE + 1 ≤ 256)
    (hnodup : (m.blocks.map fun e => e.1).Nodup) :
    ∃ f, m.into_chunks = some f ∧
      (∀ k, (f k).isSome = true ↔
        (k.1 < m.size.x / CHUNK_SIZE + 1 ∧ k.2.1 < m.size.y / CHUNK_SIZE + 1 ∧
          k.2.2 < m.size.z / CHUNK_SIZE + 1)) ∧
      (∀ k bundle, f k = some bundle → bundle.chunk.palette = m.palette ∧
        ∀ a b c, a < CHUNK_SIZE → b < CHUNK_SIZE → c < CHUNK_SIZE →
          bundle.chunk.blocks a b c =
            (m.blockAt (k.1 * CHUNK_SIZE + a, k.2.1 * CHUNK_SIZE + b,
              k.2.2 * CHUNK_SIZE + c)).getD ⟨false, 0⟩) := by
  obtain ⟨f, h1, h2, h3, _⟩ := into_chunks_char m hkeys h256 hdims hnodup
  exact ⟨f, h1, h2, h3⟩

/-- C7 witness: a one-voxel model of size 5×6×7 through `c7_partition`. -/
theorem c7_partition_witness :
    ∃ f, VoxelModel.into_chunks ⟨[((1, 2, 3), ⟨true, 4⟩)], [⟨9, 9, 9⟩], ⟨5, 6, 7⟩⟩
        = some f ∧
      (∀ k, (f k).isSome = true ↔
        (k.1 < 5 / CHUNK_SIZE + 1 ∧ k.2.1 < 6 / CHUNK_SIZE + 1 ∧
          k.2.2 < 7 / CHUNK_SIZE + 1)) ∧
      (∀ k bundle, f k = some bundle → bundle.chunk.palette = [⟨9, 9, 9⟩] ∧
        ∀ a b c, a < CHUNK_SIZE → b < CHUNK_SIZE → c < CHUNK_SIZE →
          bundle.chunk.blocks a b c =
            ((VoxelModel.blockAt ⟨[((1, 2, 3), ⟨true, 4⟩)], [⟨9, 9, 9⟩], ⟨5, 6, 7⟩⟩
              (k.1 * CHUNK_SIZE + a, k.2.1 * CHUNK_SIZE + b,
                k.2.2 * CHUNK_SIZE + c))).getD ⟨false, 0⟩) :=
  c7_partition ⟨[((1, 2, 3), ⟨true, 4⟩)], [⟨9, 9, 9⟩], ⟨5, 6, 7⟩⟩
    (by decide) (by decide) (by decide) (by decide)

/-- C8 counterexample.  The spec claims each chunk's transform translation
equals its grid coordinate times `CHUNK_SIZE` (zero for a single-chunk
model); the code subtracts `size / 2` per axis to centre the model.  An
empty 2×2×2 model yields one chunk at grid key `(0,0,0)` with translation
`(-1, -1, -1)`, not `(0, 0, 0)`. -/
theorem c8_counterexample :
    ((VoxelModel.into_chunks ⟨[], [], ⟨2, 2, 2⟩⟩).bind fun f => f (0, 0, 0)).map
        (fun bundle => bundle.transform.translation) = some (-1, -1, -1) ∧
      ((-1, -1, -1) : Int × Int × Int) ≠
        (((0 * CHUNK_SIZE : Nat) : Int), ((0 * CHUNK_SIZE : Nat) : Int),
          ((0 * CHUNK_SIZE : Nat) : Int)) := by
  refine ⟨rfl, by decide⟩

/-- C8 (amended): each chunk produced by `into_chunks` is paired with a
Transform whose translation per axis is its chunk-grid coordinate times
`CHUNK_SIZE` minus `size / 2` (integer division) — the model is centred; a
model whose dimensions are all < `CHUNK_SIZE` yields exactly one chunk, at
grid key `(0,0,0)`, whose translation is `(-size.x/2, -size.y/2, -size.z/2)`
rather than zero. -/
theorem c8_centered_transform (m : VoxelModel)
    (hkeys : ∀ e ∈ m.blocks, e.1.1 < m.size.x ∧ e.1.2.1 < m.size.y ∧ e.1.2.2 < m.size.z)
    (h256 : ∀ e ∈ m.blocks, e.1.1 < 256 ∧ e.1.2.1 < 256 ∧ e.1.2.2 < 256)
    (hdims : m.size.x / CHUNK_SIZE + 1 ≤ 256 ∧ m.size.y / CHUNK_SIZE + 1 ≤ 256 ∧
      m.size.z / CHUNK_SIZE + 1 ≤ 256)
    (hnodup : (m.blocks.map fun e => e.1).Nodup) :
    ∃ f, m.into_chunks = some f ∧
      (∀ k bundle, f k = some bundle →
        bundle.transform.translation =
          (((k.1 * CHUNK_SIZE : Nat) : Int) - ((m.size.x / 2 : Nat) : Int),
           ((k.2.1 * CHUNK_SIZE : Nat) : Int) - ((m.size.y / 2 : Nat) : Int),
           ((k.2.2 * CHUNK_SIZE : Nat) : Int) - ((m.size.z / 2 : Nat) : Int))) ∧
      (m.size.x < CHUNK_SIZE → m.size.y < CHUNK_SIZE → m.size.z < CHUNK_SIZE →
        ∀ k, (f k).isSome = true ↔ k = ((0 : Nat), (0 : Nat), (0 : Nat))) := by
  obtain ⟨f, h1, h2, _, h4⟩ := into_chunks_char m hkeys h256 hdims hnodup
  refine ⟨f, h1, h4, ?_⟩
  intro hx hy hz k
  rw [h2 k]
  have hdx : m.size.x / CHUNK_SIZE = 0 := Nat.div_eq_of_lt hx
  have hdy : m.size.y / CHUNK_SIZE = 0 := Nat.div_eq_of_lt hy
  have hdz : m.size.z / CHUNK_SIZE = 0 := Nat.div_eq_of_lt hz
  rcases k with ⟨a, b, c⟩
  simp [hdx, hdy, hdz, Nat.lt_one_iff, Prod.ext_iff]

/-- C8 witness: the empty 2×2×2 model through `c8_centered_transform`. -/
theorem c8_centered_transform_witness :
    ∃ f, VoxelModel.into_chunks ⟨[], [], ⟨2, 2, 2⟩⟩ = some f ∧
      (∀ k bundle, f k = some bundle →
        bundle.transform.translation =
          (((k.1 * CHUNK_SIZE : Nat) : Int) - ((2 / 2 : Nat) : Int),
           ((k.2.1 * CHUNK_SIZE : Nat) : Int) - ((2 / 2 : Nat) : Int),
           ((k.2.2 * CHUNK_SIZE : Nat) : Int) - ((2 / 2 : Nat) : Int))) ∧
      ((2 : Nat) < CHUNK_SIZE → (2 : Nat) < CHUNK_SIZE → (2 : Nat) < CHUNK_SIZE →
        ∀ k, (f k).isSome = true ↔ k = ((0 : Nat), (0 : Nat), (0 : Nat))) :=
  c8_centered_transform ⟨[], [], ⟨2, 2, 2⟩⟩ (by simp) (by simp) (by decide) (by simp)

/-! ## C4: chunk face-culling mesher -/

/-- `get_block` succeeds on in-range coordinates. -/
theorem get_block_lt (c : Chunk) (x y z : Nat)
    (hx : x < CHUNK_SIZE) (hy : y < CHUNK_SIZE) (hz : z < CHUNK_SIZE) :
    c.get_block x y z = some (c.blocks x y z) := by
  simp [Chunk.get_block, hx, hy, hz]

/-- `check_block` on in-range coordinates reads the block's active flag. -/
theorem check_block_lt (c : Chunk) (x y z : Nat)
    (hx : x < CHUNK_SIZE) (hy : y < CHUNK_SIZE) (hz : z < CHUNK_SIZE) :
    c.check_block x y z = (c.blocks x y z).active := by
  simp [Chunk.check_block, get_block_lt c x y z hx hy hz]

/-- `check_block` is false out of range. -/
theorem check_block_oob (c : Chunk) (x y z : Nat)
    (h : ¬ (x < CHUNK_SIZE ∧ y < CHUNK_SIZE ∧ z < CHUNK_SIZE)) :
    c.check_block x y z = false := by
  simp only [Chunk.check_block, Chunk.get_block]
  by_cases hx : x < CHUNK_SIZE
  · by_cases hy : y < CHUNK_SIZE
    · by_cases hz : z < CHUNK_SIZE
      · exact absurd ⟨hx, hy, hz⟩ h
      · simp [hx, hy, hz]
    · simp [hx, hy]
  · simp [hx]

/-- One `generate_mesh` loop iteration appends exactly the block
contribution. -/
theorem mesh_step_char (c : Chunk) (m : Mesh) (p : Nat × Nat × Nat) :
    c.mesh_step m p = (c.blockContrib p.1 p.2.1 p.2.2).map fun vs =>
      ⟨m.vertex_data ++ vs⟩ := by
  rcases p with ⟨x, y, z⟩
  unfold Chunk.mesh_step Chunk.blockContrib
  cases hgb : c.get_block x y z with
  | none => rfl
  | some block =>
    by_cases hact : block.active
    · simp only [hact, Bool.not_true, Bool.false_eq_true, if_false]
      cases hpal : c.palette[block.color_id]? with
      | none => rfl
      | some color =>
        simp only [Option.map_some']
        by_cases h1 : (z = 0 || !c.check_block x y (z - 1) : Bool) = true <;>
        by_cases h2 : (!c.check_block x y (z + 1) : Bool) = true <;>
        by_cases h3 : (x = 0 || !c.check_block (x - 1) y z : Bool) = true <;>
        by_cases h4 : (!c.check_block (x + 1) y z : Bool) = true <;>
        by_cases h5 : (y = 0 || !c.check_block x (y - 1) z : Bool) = true <;>
        by_cases h6 : (!c.check_block x (y + 1) z : Bool) = true <;>
        simp [Chunk.implFaces, Mesh.add_front_face, Mesh.add_back_face,
          Mesh.add_left_face, Mesh.add_right_face, Mesh.add_bottom_face,
          Mesh.add_top_face, h1, h2, h3, h4, h5, h6]
    · simp only [Bool.not_eq_true] at hact
      simp only [hact, Bool.not_false, if_true, Option.map_some', List.append_nil]

/-- The `generate_mesh` fold accumulates the per-coordinate contributions. -/
theorem foldlM_mesh_step (c : Chunk) (l : List (Nat × Nat × Nat))
    (spec : Nat × Nat × Nat → List Vertex) :
    (∀ p ∈ l, c.blockContrib p.1 p.2.1 p.2.2 = some (spec p)) →
    ∀ m : Mesh, l.foldlM c.mesh_step m = some ⟨m.vertex_data ++ l.flatMap spec⟩ := by
  induction l with
  | nil =>
    intro _ m
    simp [List.foldlM]
  | cons p t ih =>
    intro h m
    have hcons : (p :: t).foldlM c.mesh_step m =
        c.mesh_step m p >>= fun m' => t.foldlM c.mesh_step m' := rfl
    rw [hcons, mesh_step_char, h p (by simp), Option.map_some', option_some_bind,
      ih (fun q hq => h q (by simp [hq])) ⟨m.vertex_data ++ spec p⟩]
    simp [List.flatMap_cons]

/-- The outside-or-inactive disjunction collapses to inactivity at integer
coordinates (outside coordinates are never active). -/
theorem or_not_activeAt (c : Chunk) (p : Int × Int × Int) :
    (outsideGrid p || !c.activeAt p) = !c.activeAt p := by
  cases houts : outsideGrid p
  · simp
  · simp [Chunk.activeAt, houts]

/-- The front-face neighbour test of the source equals the claim-language
visibility condition. -/
theorem impl_cond_front (c : Chunk) (x y z : Nat)
    (hx : x < 32) (hy : y < 32) (hz : z < 32) :
    (z = 0 || !c.check_block x y (z - 1) : Bool) =
      !c.activeAt (faceNeighbor x y z .front) := by
  simp only [faceNeighbor]
  by_cases hz0 : z = 0
  · subst hz0
    have ho : outsideGrid ((x : Int), (y : Int), -1) = true := by
      simp only [outsideGrid, CHUNK_SIZE, Bool.or_eq_true, decide_eq_true_eq]
      omega
    simp [Chunk.activeAt, ho]
  · have ho : outsideGrid (↑x, ↑y, (↑z : Int) - 1) = false := by
      simp only [outsideGrid, CHUNK_SIZE, Bool.or_eq_false_iff, decide_eq_false_iff_not]
      omega
    have ha : c.activeAt (↑x, ↑y, (↑z : Int) - 1) = c.check_block x y (z - 1) := by
      rw [check_block_lt c x y (z - 1) (by simp [CHUNK_SIZE]; omega)
        (by simp [CHUNK_SIZE]; omega) (by simp [CHUNK_SIZE]; omega)]
      simp only [Chunk.activeAt, ho, Bool.not_false, Bool.true_and]
      rw [show ((x : Nat) : Int).toNat = x from by omega,
        show ((y : Nat) : Int).toNat = y from by omega,
        show (((z : Nat) : Int) - 1).toNat = z - 1 from by omega]
    rw [ha]
    simp [hz0]

/-- The back-face neighbour test of the source equals the claim-language
visibility condition. -/
theorem impl_cond_back (c : Chunk) (x y z : Nat)
    (hx : x < 32) (hy : y < 32) (hz : z < 32) :
    (!c.check_block x y (z + 1) : Bool) = !c.activeAt (faceNeighbor x y z .back) := by
  simp only [faceNeighbor]
  by_cases hz31 : z + 1 < 32
  · have ho : outsideGrid (↑x, ↑y, (↑z : Int) + 1) = false := by
      simp only [outsideGrid, CHUNK_SIZE, Bool.or_eq_false_iff, decide_eq_false_iff_not]
      omega
    have ha : c.activeAt (↑x, ↑y, (↑z : Int) + 1) = c.check_block x y (z + 1) := by
      rw [check_block_lt c x y (z + 1) (by simp [CHUNK_SIZE]; omega)
        (by simp [CHUNK_SIZE]; omega) (by simp [CHUNK_SIZE]; omega)]
      simp only [Chunk.activeAt, ho, Bool.not_false, Bool.true_and]
      rw [show ((x : Nat) : Int).toNat = x from by omega,
        show ((y : Nat) : Int).toNat = y from by omega,
        show (((z : Nat) : Int) + 1).toNat = z + 1 from by omega]
    rw [ha]
  · have ho : outsideGrid (↑x, ↑y, (↑z : Int) + 1) = true := by
      simp only [outsideGrid, CHUNK_SIZE, Bool.or_eq_true, decide_eq_true_eq]
      omega
    have hcb : c.check_block x y (z + 1) = false :=
      check_block_oob c x y (z + 1) (by simp [CHUNK_SIZE]; omega)
    simp [Chunk.activeAt, ho, hcb]

/-- The left-face neighbour test of the source equals the claim-language
visibility condition. -/
theorem impl_cond_left (c : Chunk) (x y z : Nat)
    (hx : x < 32) (hy : y < 32) (hz : z < 32) :
    (x = 0 || !c.check_block (x - 1) y z : Bool) =
      !c.activeAt (faceNeighbor x y z .leftF) := by
  simp only [faceNeighbor]
  by_cases hx0 : x = 0
  · subst hx0
    have ho : outsideGrid ((-1 : Int), (y : Int), (z : Int)) = true := by
      simp only [outsideGrid, CHUNK_SIZE, Bool.or_eq_true, decide_eq_true_eq]
      omega
    simp [Chunk.activeAt, ho]
  · have ho : outsideGrid ((↑x : Int) - 1, ↑y, ↑z) = false := by
      simp only [outsideGrid, CHUNK_SIZE, Bool.or_eq_false_iff, decide_eq_false_iff_not]
      omega
    have ha : c.activeAt ((↑x : Int) - 1, ↑y, ↑z) = c.check_block (x - 1) y z := by
      rw [check_block_lt c (x - 1) y z (by simp [CHUNK_SIZE]; omega)
        (by simp [CHUNK_SIZE]; omega) (by simp [CHUNK_SIZE]; omega)]
      simp only [Chunk.activeAt, ho, Bool.not_false, Bool.true_and]
      rw [show (((x : Nat) : Int) - 1).toNat = x - 1 from by omega,
        show ((y : Nat) : Int).toNat = y from by omega,
        show ((z : Nat) : Int).toNat = z from by omega]
    rw [ha]
    simp [hx0]

/-- The right-face neighbour test of the source equals the claim-language
visibility condition. -/
theorem impl_cond_right (c : Chunk) (x y z : Nat)
    (hx : x < 32) (hy : y < 32) (hz : z < 32) :
    (!c.check_block (x + 1) y z : Bool) = !c.activeAt (faceNeighbor x y z .rightF) := by
  simp only [faceNeighbor]
  by_cases hx31 : x + 1 < 32
  · have ho : outsideGrid ((↑x : Int) + 1, ↑y, ↑z) = false := by
      simp only [outsideGrid, CHUNK_SIZE, Bool.or_eq_false_iff, decide_eq_false_iff_not]
      omega
    have ha : c.activeAt ((↑x : Int) + 1, ↑y, ↑z) = c.check_block (x + 1) y z := by
      rw [check_block_lt c (x + 1) y z (by simp [CHUNK_SIZE]; omega)
        (by simp [CHUNK_SIZE]; omega) (by simp [CHUNK_SIZE]; omega)]
      simp only [Chunk.activeAt, ho, Bool.not_false, Bool.true_and]
      rw [show (((x : Nat) : Int) + 1).toNat = x + 1 from by omega,
        show ((y : Nat) : Int).toNat = y from by omega,
        show ((z : Nat) : Int).toNat = z from by omega]
    rw [ha]
  · have ho : outsideGrid ((↑x : Int) + 1, ↑y, ↑z) = true := by
      simp only [outsideGrid, CHUNK_SIZE, Bool.or_eq_true, decide_eq_true_eq]
      omega
    have hcb : c.check_block (x + 1) y z = false :=
      check_block_oob c (x + 1) y z (by simp [CHUNK_SIZE]; omega)
    simp [Chunk.activeAt, ho, hcb]

/-- The bottom-face neighbour test of the source equals the claim-language
visibility condition. -/
theorem impl_cond_bottom (c : Chunk) (x y z : Nat)
    (hx : x < 32) (hy : y < 32) (hz : z < 32) :
    (y = 0 || !c.check_block x (y - 1) z : Bool) =
      !c.activeAt (faceNeighbor x y z .bottom) := by
  simp only [faceNeighbor]
  by_cases hy0 : y = 0
  · subst hy0
    have ho : outsideGrid ((x : Int), (-1 : Int), (z : Int)) = true := by
      simp only [outsideGrid, CHUNK_SIZE, Bool.or_eq_true, decide_eq_true_eq]
      omega
    simp [Chunk.activeAt, ho]
  · have ho : outsideGrid (↑x, (↑y : Int) - 1, ↑z) = false := by
      simp only [outsideGrid, CHUNK_SIZE, Bool.or_eq_false_iff, decide_eq_false_iff_not]
      omega
    have ha : c.activeAt (↑x, (↑y : Int) - 1, ↑z) = c.check_block x (y - 1) z := by
      rw [check_block_lt c x (y - 1) z (by simp [CHUNK_SIZE]; omega)
        (by simp [CHUNK_SIZE]; omega) (by simp [CHUNK_SIZE]; omega)]
      simp only [Chunk.activeAt, ho, Bool.not_false, Bool.true_and]
      rw [show ((x : Nat) : Int).toNat = x from by omega,
        show (((y : Nat) : Int) - 1).toNat = y - 1 from by omega,
        show ((z : Nat) : Int).toNat = z from by omega]
    rw [ha]
    simp [hy0]

/-- The top-face neighbour test of the source equals the claim-language
visibility condition. -/
theorem impl_cond_top (c : Chunk) (x y z : Nat)
    (hx : x < 32) (hy : y < 32) (hz : z < 32) :
    (!c.check_block x (y + 1) z : Bool) = !c.activeAt (faceNeighbor x y z .top) := by
  simp only [faceNeighbor]
  by_cases hy31 : y + 1 < 32
  · have ho : outsideGrid (↑x, (↑y : Int) + 1, ↑z) = false := by
      simp only [outsideGrid, CHUNK_SIZE, Bool.or_eq_false_iff, decide_eq_false_iff_not]
      omega
    have ha : c.activeAt (↑x, (↑y : Int) + 1, ↑z) = c.check_block x (y + 1) z := by
      rw [check_block_lt c x (y + 1) z (by simp [CHUNK_SIZE]; omega)
        (by simp [CHUNK_SIZE]; omega) (by simp [CHUNK_SIZE]; omega)]
      simp only [Chunk.activeAt, ho, Bool.not_false, Bool.true_and]
      rw [show ((x : Nat) : Int).toNat = x from by omega,
        show (((y : Nat) : Int) + 1).toNat = y + 1 from by omega,
        show ((z : Nat) : Int).toNat = z from by omega]
    rw [ha]
  · have ho : outsideGrid (↑x, (↑y : Int) + 1, ↑z) = true := by
      simp only [outsideGrid, CHUNK_SIZE, Bool.or_eq_true, decide_eq_true_eq]
      omega
    have hcb : c.check_block x (y + 1) z = false :=
      check_block_oob c x (y + 1) z (by simp [CHUNK_SIZE]; omega)
    simp [Chunk.activeAt, ho, hcb]

/-- Flat-mapping over a filtered list collects the conditional blocks. -/
theorem filter_flatMap (l : List γ) (p : γ → Bool) (g : γ → List δ) :
    (l.filter p).flatMap g = l.flatMap fun a => if p a then g a else [] := by
  induction l with
  | nil => rfl
  | cons a t ih =>
    by_cases hp : p a <;> simp [List.filter_cons, hp, ih]

/-- An inactive block contributes no spec vertices. -/
theorem blockMeshSpec_inactive (c : Chunk) (x y z : Nat)
    (hact : (c.blocks x y z).active = false) : c.blockMeshSpec x y z = [] := by
  unfold Chunk.blockMeshSpec
  cases hpal : c.palette[(c.blocks x y z).color_id]? with
  | none => rfl
  | some color =>
    simp [Chunk.faceVisible, hact, List.filter_eq_nil_iff]

/-- For an in-range active block, the spec contribution is the palette
lookup followed by the implementation's conditional face list. -/
theorem blockMeshSpec_active (c : Chunk) (x y z : Nat)
    (hx : x < CHUNK_SIZE) (hy : y < CHUNK_SIZE) (hz : z < CHUNK_SIZE)
    (hact : (c.blocks x y z).active = true) :
    c.blockMeshSpec x y z =
      match c.palette[(c.blocks x y z).color_id]? with
      | none => []
      | some color => c.implFaces x y z color := by
  have hx32 : x < 32 := by simpa [CHUNK_SIZE] using hx
  have hy32 : y < 32 := by simpa [CHUNK_SIZE] using hy
  have hz32 : z < 32 := by simpa [CHUNK_SIZE] using hz
  unfold Chunk.blockMeshSpec
  cases hpal : c.palette[(c.blocks x y z).color_id]? with
  | none => rfl
  | some color =>
    show (faceOrder.filter (c.faceVisible x y z)).flatMap (fun f => faceData f x y z color)
        = c.implFaces x y z color
    rw [filter_flatMap]
    simp only [faceOrder, List.flatMap_cons, List.flatMap_nil, List.append_nil, faceData]
    unfold Chunk.implFaces
    simp only [show ∀ f, c.faceVisible x y z f = !c.activeAt (faceNeighbor x y z f) from
      fun f => by rw [Chunk.faceVisible, or_not_activeAt, hact, Bool.true_and]]
    rw [← impl_cond_front c x y z hx32 hy32 hz32, ← impl_cond_back c x y z hx32 hy32 hz32,
      ← impl_cond_left c x y z hx32 hy32 hz32, ← impl_cond_right c x y z hx32 hy32 hz32,
      ← impl_cond_bottom c x y z hx32 hy32 hz32, ← impl_cond_top c x y z hx32 hy32 hz32]

/-- For an in-range coordinate of a palette-valid chunk, the implementation
contribution equals the spec contribution. -/
theorem blockContrib_eq_spec (c : Chunk) (x y z : Nat)
    (hx : x < CHUNK_SIZE) (hy : y < CHUNK_SIZE) (hz : z < CHUNK_SIZE)
    (hpal : c.paletteOk) :
    c.blockContrib x y z = some (c.blockMeshSpec x y z) := by
  unfold Chunk.blockContrib
  rw [get_block_lt c x y z hx hy hz]
  by_cases hact : (c.blocks x y z).active = true
  · have hci : (c.blocks x y z).color_id < c.palette.length := hpal x y z hx hy hz hact
    have hsome : c.palette[(c.blocks x y z).color_id]? =
        some (c.palette[(c.blocks x y z).color_id]) := List.getElem?_eq_getElem hci
    rw [blockMeshSpec_active c x y z hx hy hz hact, hsome]
    simp only [hact, Bool.not_true, Bool.false_eq_true, if_false, Option.map_eq_some']
    exact ⟨_, hsome, rfl⟩
  · simp only [Bool.not_eq_true] at hact
    rw [blockMeshSpec_inactive c x y z hact]
    simp [hact]

/-- Membership in the mesher's coordinate list. -/
theorem mem_meshCoords (p : Nat × Nat × Nat) :
    p ∈ meshCoords ↔ p.1 < CHUNK_SIZE ∧ p.2.1 < CHUNK_SIZE ∧ p.2.2 < CHUNK_SIZE := by
  rcases p with ⟨x, y, z⟩
  simp only [meshCoords, List.mem_flatMap, List.mem_map, List.mem_range]
  constructor
  · rintro ⟨a, ha, b, hb, c, hc, heq⟩
    cases heq
    exact ⟨ha, hb, hc⟩
  · rintro ⟨hx, hy, hz⟩
    exact ⟨x, hx, y, hy, z, hz, rfl⟩

/-- The mesher refines the claim-language specification: for a chunk whose
active blocks all carry valid palette indices, `generate_mesh` succeeds and
returns exactly the spec mesh. -/
theorem generate_mesh_eq_spec (c : Chunk) (hpal : c.paletteOk) :
    c.generate_mesh = some ⟨c.meshSpec⟩ := by
  have hall : ∀ p ∈ meshCoords, c.blockContrib p.1 p.2.1 p.2.2 =
      some ((fun p : Nat × Nat × Nat => c.blockMeshSpec p.1 p.2.1 p.2.2) p) := by
    intro p hp
    obtain ⟨hx, hy, hz⟩ := (mem_meshCoords p).mp hp
    exact blockContrib_eq_spec c p.1 p.2.1 p.2.2 hx hy hz hpal
  have h := foldlM_mesh_step c meshCoords
    (fun p : Nat × Nat × Nat => c.blockMeshSpec p.1 p.2.1 p.2.2) hall Mesh.default
  show meshCoords.foldlM c.mesh_step Mesh.default = some ⟨c.meshSpec⟩
  rw [h]
  show some (⟨[] ++ c.meshSpec⟩ : Mesh) = some ⟨c.meshSpec⟩
  rw [List.nil_append]

/-- Length of a `flatMap` as the sum of block lengths. -/
theorem len_flatMap (l : List γ) (g : γ → List δ) :
    (l.flatMap g).length = (l.map fun a => (g a).length).sum := by
  induction l <;> simp [*]

/-- Mapping over a `flatMap` maps over the blocks. -/
theorem map_flatMap' (l : List γ) (f : γ → List δ) (h : δ → β) :
    (l.flatMap f).map h = l.flatMap fun a => (f a).map h := by
  induction l <;> simp [*]

/-- Sum of a `flatMap` as the sum of block sums. -/
theorem sum_flatMap' (l : List γ) (f : γ → List Nat) :
    (l.flatMap f).sum = (l.map fun a => (f a).sum).sum := by
  induction l <;> simp [*]

/-- The spec mesh's vertex count as a triple nested sum over the grid. -/
theorem meshSpec_length (c : Chunk) :
    c.meshSpec.length = ((List.range CHUNK_SIZE).map fun x =>
      ((List.range CHUNK_SIZE).map fun y =>
        ((List.range CHUNK_SIZE).map fun z =>
          (c.blockMeshSpec x y z).length).sum).sum).sum := by
  unfold Chunk.meshSpec meshCoords
  rw [len_flatMap, map_flatMap', sum_flatMap']
  apply congrArg List.sum
  apply List.map_congr_left
  intro x _
  rw [map_flatMap', sum_flatMap']
  apply congrArg List.sum
  apply List.map_congr_left
  intro y _
  rw [List.map_map]
  rfl

/-- A sum over `range n` of an everywhere-zero function. -/
theorem sum_map_range_zero (n : Nat) (g : Nat → Nat) (h : ∀ i, i < n → g i = 0) :
    ((List.range n).map g).sum = 0 := by
  apply List.sum_eq_zero
  intro x hx
  simp only [List.mem_map, List.mem_range] at hx
  obtain ⟨i, hi, rfl⟩ := hx
  exact h i hi

/-- A sum over `range n` with a single nonzero point. -/
theorem sum_map_range_single (n x₀ : Nat) (g : Nat → Nat) (hx : x₀ < n)
    (h : ∀ i, i < n → i ≠ x₀ → g i = 0) : ((List.range n).map g).sum = g x₀ := by
  induction n with
  | zero => cases hx
  | succ m ih =>
    rw [List.range_succ, List.map_append, List.sum_append]
    by_cases hm : x₀ = m
    · rw [sum_map_range_zero m g fun i hi => h i (by omega) (by omega)]
      simp [hm]
    · rw [ih (by omega) fun i hi hne => h i (by omega) hne]
      have hgm : g m = 0 := h m (by omega) (by omega)
      simp [hgm]

/-- A sum over `range n` with exactly two nonzero points. -/
theorem sum_map_range_pair (n a b : Nat) (g : Nat → Nat) (hab : a < b) (hb : b < n)
    (h : ∀ i, i < n → i ≠ a → i ≠ b → g i = 0) :
    ((List.range n).map g).sum = g a + g b := by
  induction n with
  | zero => cases hb
  | succ m ih =>
    rw [List.range_succ, List.map_append, List.sum_append]
    by_cases hbm : b = m
    · rw [sum_map_range_single m a g (by omega) fun i hi hne => h i (by omega) hne (by omega)]
      simp [hbm]
    · rw [ih (by omega) fun i hi h1 h2 => h i (by omega) h1 h2]
      have hgm : g m = 0 := h m (by omega) (by omega) (by omega)
      simp [hgm]

/-- Every face contributes exactly six vertices. -/
theorem faceData_length (f : FaceDir) (x y z : Nat) (col : Color) :
    (faceData f x y z col).length = 6 := by
  cases f <;> rfl

/-- Every face's six vertices carry the given color and the face's normal. -/
theorem faceData_geometry (f : FaceDir) (x y z : Nat) (col : Color) :
    ∀ v ∈ faceData f x y z col, v.color = col ∧ v.normal = faceNormal f := by
  cases f <;>
  · intro v hv
    simp [faceData, front_face_data, back_face_data, left_face_data, right_face_data,
      bottom_face_data, top_face_data] at hv
    rcases hv with rfl | rfl | rfl | rfl | rfl | rfl <;> exact ⟨rfl, rfl⟩

/-- In the single-block chunk, every coordinate other than the chosen one is
inactive (outside coordinates included). -/
theorem activeAt_singleBlock (x y z : Nat) (pal : List Color) (ci : Nat)
    (p : Int × Int × Int) (hne : p ≠ ((x : Int), (y : Int), (z : Int))) :
    (singleBlockChunk x y z pal ci).activeAt p = false := by
  rcases p with ⟨a, b, d⟩
  cases houts : outsideGrid (a, b, d) with
  | true => simp [Chunk.activeAt, houts]
  | false =>
    have hbd := houts
    simp only [outsideGrid, CHUNK_SIZE, Bool.or_eq_false_iff,
      decide_eq_false_iff_not] at hbd
    have hcond : ¬(a.toNat = x ∧ b.toNat = y ∧ d.toNat = z) := by
      rintro ⟨e1, e2, e3⟩
      apply hne
      have ha : a = (x : Int) := by omega
      have hb : b = (y : Int) := by omega
      have hd : d = (z : Int) := by omega
      rw [ha, hb, hd]
    simp [Chunk.activeAt, singleBlockChunk, houts, hcond]

/-- All six faces of the isolated block are visible. -/
theorem singleBlock_faceVisible (x y z : Nat) (pal : List Color) (ci : Nat)
    (f : FaceDir) :
    (singleBlockChunk x y z pal ci).faceVisible x y z f = true := by
  have hact : ((singleBlockChunk x y z pal ci).blocks x y z).active = true := by
    simp [singleBlockChunk]
  have hne : faceNeighbor x y z f ≠ ((x : Int), (y : Int), (z : Int)) := by
    cases f <;> simp [faceNeighbor, Prod.ext_iff]
  rw [Chunk.faceVisible, or_not_activeAt, hact, Bool.true_and,
    activeAt_singleBlock x y z pal ci (faceNeighbor x y z f) hne]
  rfl

/-- The isolated block's palette indices are valid. -/
theorem singleBlock_paletteOk (x y z : Nat) (pal : List Color) (ci : Nat)
    (hci : ci < pal.length) : (singleBlockChunk x y z pal ci).paletteOk := by
  intro a b d _ _ _ hact
  by_cases hco : a = x ∧ b = y ∧ d = z
  · simpa [singleBlockChunk, hco] using hci
  · simp [singleBlockChunk, hco] at hact

/-- The isolated block's own contribution is six faces of six vertices. -/
theorem singleBlock_contrib_length (x y z : Nat) (pal : List Color) (ci : Nat)
    (hci : ci < pal.length) :
    ((singleBlockChunk x y z pal ci).blockMeshSpec x y z).length = 36 := by
  unfold Chunk.blockMeshSpec
  have hcid : ((singleBlockChunk x y z pal ci).blocks x y z).color_id = ci := by
    simp [singleBlockChunk]
  rw [hcid, show (singleBlockChunk x y z pal ci).palette = pal from rfl,
    List.getElem?_eq_getElem hci]
  have hfil : faceOrder.filter ((singleBlockChunk x y z pal ci).faceVisible x y z)
      = faceOrder :=
    List.filter_eq_self.mpr fun f _ => singleBlock_faceVisible x y z pal ci f
  show ((faceOrder.filter ((singleBlockChunk x y z pal ci).faceVisible x y z)).flatMap
    fun f => faceData f x y z pal[ci]).length = 36
  rw [hfil, len_flatMap]
  simp [faceOrder, faceData_length]

/-- Every other coordinate of the single-block chunk contributes nothing. -/
theorem singleBlock_contrib_zero (x y z : Nat) (pal : List Color) (ci : Nat)
    (a b d : Nat) (hne : ¬(a = x ∧ b = y ∧ d = z)) :
    (singleBlockChunk x y z pal ci).blockMeshSpec a b d = [] := by
  apply blockMeshSpec_inactive
  simp [singleBlockChunk, hne]

/-- The whole spec mesh of the single-block chunk has exactly 36 vertices. -/
theorem singleBlock_meshSpec_length (x y z : Nat) (pal : List Color) (ci : Nat)
    (hx : x < CHUNK_SIZE) (hy : y < CHUNK_SIZE) (hz : z < CHUNK_SIZE)
    (hci : ci < pal.length) :
    (singleBlockChunk x y z pal ci).meshSpec.length = 36 := by
  rw [meshSpec_length]
  have hoz : ∀ i, i < CHUNK_SIZE → i ≠ z →
      ((singleBlockChunk x y z pal ci).blockMeshSpec x y i).length = 0 := by
    intro i hi hne
    rw [singleBlock_contrib_zero x y z pal ci x y i fun hc => hne hc.2.2]
    rfl
  have hoy : ∀ j, j < CHUNK_SIZE → j ≠ y →
      ((List.range CHUNK_SIZE).map fun k =>
        ((singleBlockChunk x y z pal ci).blockMeshSpec x j k).length).sum = 0 := by
    intro j hj hne
    apply sum_map_range_zero
    intro k hk
    rw [singleBlock_contrib_zero x y z pal ci x j k fun hc => hne hc.2.1]
    rfl
  have hox : ∀ i, i < CHUNK_SIZE → i ≠ x →
      ((List.range CHUNK_SIZE).map fun j =>
        ((List.range CHUNK_SIZE).map fun k =>
          ((singleBlockChunk x y z pal ci).blockMeshSpec i j k).length).sum).sum = 0 := by
    intro i hi hne
    apply sum_map_range_zero
    intro j hj
    apply sum_map_range_zero
    intro k hk
    rw [singleBlock_contrib_zero x y z pal ci i j k fun hc => hne hc.1]
    rfl
  rw [sum_map_range_single CHUNK_SIZE x _ hx hox,
    sum_map_range_single CHUNK_SIZE y _ hy hoy,
    sum_map_range_single CHUNK_SIZE z _ hz hoz]
  exact singleBlock_contrib_length x y z pal ci hci

/-- In the two-block chunk, every coordinate other than the two chosen ones
is inactive. -/
theorem activeAt_twoBlock_false (x y z : Nat) (pal : List Color) (ci cj : Nat)
    (p : Int × Int × Int) (h1 : p ≠ ((x : Int), (y : Int), (z : Int)))
    (h2 : p ≠ (((x + 1 : Nat) : Int), (y : Int), (z : Int))) :
    (twoBlockChunk x y z pal ci cj).activeAt p = false := by
  rcases p with ⟨a, b, d⟩
  cases houts : outsideGrid (a, b, d) with
  | true => simp [Chunk.activeAt, houts]
  | false =>
    have hbd := houts
    simp only [outsideGrid, CHUNK_SIZE, Bool.or_eq_false_iff,
      decide_eq_false_iff_not] at hbd
    have hc1 : ¬(a.toNat = x ∧ b.toNat = y ∧ d.toNat = z) := by
      rintro ⟨e1, e2, e3⟩
      apply h1
      have ha : a = (x : Int) := by omega
      have hb : b = (y : Int) := by omega
      have hd : d = (z : Int) := by omega
      rw [ha, hb, hd]
    have hc2 : ¬(a.toNat = x + 1 ∧ b.toNat = y ∧ d.toNat = z) := by
      rintro ⟨e1, e2, e3⟩
      apply h2
      have ha : a = ((x + 1 : Nat) : Int) := by omega
      have hb : b = (y : Int) := by omega
      have hd : d = (z : Int) := by omega
      rw [ha, hb, hd]
    simp [Chunk.activeAt, twoBlockChunk, houts, hc1, hc2]

/-- In the two-block chunk, the first chosen coordinate is active. -/
theorem activeAt_twoBlock_fst (x y z : Nat) (pal : List Color) (ci cj : Nat)
    (hx : x < CHUNK_SIZE) (hy : y < CHUNK_SIZE) (hz : z < CHUNK_SIZE) :
    (twoBlockChunk x y z pal ci cj).activeAt
      ((x : Int), (y : Int), (z : Int)) = true := by
  have ho : outsideGrid ((x : Int), (y : Int), (z : Int)) = false := by
    simp only [outsideGrid, CHUNK_SIZE, Bool.or_eq_false_iff, decide_eq_false_iff_not]
    simp only [CHUNK_SIZE] at hx hy hz
    omega
  simp only [Chunk.activeAt, ho, Bool.not_false, Bool.true_and]
  rw [show ((x : Nat) : Int).toNat = x from by omega,
    show ((y : Nat) : Int).toNat = y from by omega,
    show ((z : Nat) : Int).toNat = z from by omega]
  simp [twoBlockChunk]

/-- In the two-block chunk, the second chosen coordinate is active. -/
theorem activeAt_twoBlock_snd (x y z : Nat) (pal : List Color) (ci cj : Nat)
    (hx1 : x + 1 < CHUNK_SIZE) (hy : y < CHUNK_SIZE) (hz : z < CHUNK_SIZE) :
    (twoBlockChunk x y z pal ci cj).activeAt
      ((x : Int) + 1, (y : Int), (z : Int)) = true := by
  have ho : outsideGrid ((x : Int) + 1, (y : Int), (z : Int)) = false := by
    simp only [outsideGrid, CHUNK_SIZE, Bool.or_eq_false_iff, decide_eq_false_iff_not]
    simp only [CHUNK_SIZE] at hx1 hy hz
    omega
  simp only [Chunk.activeAt, ho, Bool.not_false, Bool.true_and]
  rw [show ((x : Int) + 1).toNat = x + 1 from by omega,
    show ((y : Nat) : Int).toNat = y from by omega,
    show ((z : Nat) : Int).toNat = z from by omega]
  have h1 : ¬(x + 1 = x ∧ y = y ∧ z = z) := by omega
  simp [twoBlockChunk, h1]

/-- Face visibility of the first block of the adjacent pair: every face
except the one towards its neighbour. -/
theorem twoBlock_vis_fst (x y z : Nat) (pal : List Color) (ci cj : Nat)
    (hx1 : x + 1 < CHUNK_SIZE) (hy : y < CHUNK_SIZE) (hz : z < CHUNK_SIZE)
    (f : FaceDir) :
    (twoBlockChunk x y z pal ci cj).faceVisible x y z f
      = decide (f ≠ FaceDir.rightF) := by
  have hact : ((twoBlockChunk x y z pal ci cj).blocks x y z).active = true := by
    simp [twoBlockChunk]
  rw [Chunk.faceVisible, or_not_activeAt, hact, Bool.true_and]
  cases f
  case rightF =>
    rw [show faceNeighbor x y z .rightF = ((x : Int) + 1, (y : Int), (z : Int)) from rfl,
      activeAt_twoBlock_snd x y z pal ci cj hx1 hy hz]
    rfl
  all_goals {
    rw [activeAt_twoBlock_false x y z pal ci cj _
      (by simp only [faceNeighbor, ne_eq, Prod.mk.injEq]; omega)
      (by simp only [faceNeighbor, ne_eq, Prod.mk.injEq]; omega)]
    rfl
  }

/-- Face visibility of the second block of the adjacent pair: every face
except the one towards its neighbour. -/
theorem twoBlock_vis_snd (x y z : Nat) (pal : List Color) (ci cj : Nat)
    (hx1 : x + 1 < CHUNK_SIZE) (hy : y < CHUNK_SIZE) (hz : z < CHUNK_SIZE)
    (f : FaceDir) :
    (twoBlockChunk x y z pal ci cj).faceVisible (x + 1) y z f
      = decide (f ≠ FaceDir.leftF) := by
  have h1 : ¬(x + 1 = x ∧ y = y ∧ z = z) := by omega
  have hact : ((twoBlockChunk x y z pal ci cj).blocks (x + 1) y z).active = true := by
    simp [twoBlockChunk, h1]
  rw [Chunk.faceVisible, or_not_activeAt, hact, Bool.true_and]
  cases f
  case leftF =>
    rw [show faceNeighbor (x + 1) y z .leftF
        = (((x + 1 : Nat) : Int) - 1, (y : Int), (z : Int)) from rfl,
      show (((x + 1 : Nat) : Int) - 1, (y : Int), (z : Int))
        = ((x : Int), (y : Int), (z : Int)) from by
          have hc : ((x + 1 : Nat) : Int) - 1 = (x : Int) := by push_cast; ring
          rw [hc],
      activeAt_twoBlock_fst x y z pal ci cj (by omega) hy hz]
    rfl
  all_goals {
    rw [activeAt_twoBlock_false x y z pal ci cj _
      (by simp only [faceNeighbor, ne_eq, Prod.mk.injEq]; omega)
      (by simp only [faceNeighbor, ne_eq, Prod.mk.injEq]; omega)]
    rfl
  }

/-- The two-block chunk's palette indices are valid. -/
theorem twoBlock_paletteOk (x y z : Nat) (pal : List Color) (ci cj : Nat)
    (hci : ci < pal.length) (hcj : cj < pal.length) :
    (twoBlockChunk x y z pal ci cj).paletteOk := by
  intro a b d _ _ _ hact
  by_cases h1 : a = x ∧ b = y ∧ d = z
  · simpa [twoBlockChunk, h1] using hci
  · by_cases h2 : a = x + 1 ∧ b = y ∧ d = z
    · simpa [twoBlockChunk, h1, h2] using hcj
    · simp [twoBlockChunk, h1, h2] at hact

/-- The first block of the pair contributes five faces of six vertices. -/
theorem twoBlock_contrib_fst (x y z : Nat) (pal : List Color) (ci cj : Nat)
    (hx1 : x + 1 < CHUNK_SIZE) (hy : y < CHUNK_SIZE) (hz : z < CHUNK_SIZE)
    (hci : ci < pal.length) :
    ((twoBlockChunk x y z pal ci cj).blockMeshSpec x y z).length = 30 := by
  unfold Chunk.blockMeshSpec
  have hcid : ((twoBlockChunk x y z pal ci cj).blocks x y z).color_id = ci := by
    simp [twoBlockChunk]
  rw [hcid, show (twoBlockChunk x y z pal ci cj).palette = pal from rfl,
    List.getElem?_eq_getElem hci]
  show ((faceOrder.filter ((twoBlockChunk x y z pal ci cj).faceVisible x y z)).flatMap
    fun f => faceData f x y z pal[ci]).length = 30
  have hfil : faceOrder.filter ((twoBlockChunk x y z pal ci cj).faceVisible x y z)
      = [.front, .back, .leftF, .bottom, .top] := by
    rw [List.filter_congr fun f _ => twoBlock_vis_fst x y z pal ci cj hx1 hy hz f]
    rfl
  rw [hfil, len_flatMap]
  simp [faceData_length]

/-- The second block of the pair contributes five faces of six vertices. -/
theorem twoBlock_contrib_snd (x y z : Nat) (pal : List Color) (ci cj : Nat)
    (hx1 : x + 1 < CHUNK_SIZE) (hy : y < CHUNK_SIZE) (hz : z < CHUNK_SIZE)
    (hcj : cj < pal.length) :
    ((twoBlockChunk x y z pal ci cj).blockMeshSpec (x + 1) y z).length = 30 := by
  unfold Chunk.blockMeshSpec
  have h1 : ¬(x + 1 = x ∧ y = y ∧ z = z) := by omega
  have hcid : ((twoBlockChunk x y z pal ci cj).blocks (x + 1) y z).color_id = cj := by
    simp [twoBlockChunk, h1]
  rw [hcid, show (twoBlockChunk x y z pal ci cj).palette = pal from rfl,
    List.getElem?_eq_getElem hcj]
  show ((faceOrder.filter ((twoBlockChunk x y z pal ci cj).faceVisible (x + 1) y z)).flatMap
    fun f => faceData f (x + 1) y z pal[cj]).length = 30
  have hfil : faceOrder.filter ((twoBlockChunk x y z pal ci cj).faceVisible (x + 1) y z)
      = [.front, .back, .rightF, .bottom, .top] := by
    rw [List.filter_congr fun f _ => twoBlock_vis_snd x y z pal ci cj hx1 hy hz f]
    rfl
  rw [hfil, len_flatMap]
  simp [faceData_length]

/-- Every other coordinate of the two-block chunk contributes nothing. -/
theorem twoBlock_contrib_zero (x y z : Nat) (pal : List Color) (ci cj : Nat)
    (a b d : Nat) (h1 : ¬(a = x ∧ b = y ∧ d = z))
    (h2 : ¬(a = x + 1 ∧ b = y ∧ d = z)) :
    (twoBlockChunk x y z pal ci cj).blockMeshSpec a b d = [] := by
  apply blockMeshSpec_inactive
  simp [twoBlockChunk, h1, h2]

/-- The whole spec mesh of the adjacent pair has exactly 60 vertices. -/
theorem twoBlock_meshSpec_length (x y z : Nat) (pal : List Color) (ci cj : Nat)
    (hx1 : x + 1 < CHUNK_SIZE) (hy : y < CHUNK_SIZE) (hz : z < CHUNK_SIZE)
    (hci : ci < pal.length) (hcj : cj < pal.length) :
    (twoBlockChunk x y z pal ci cj).meshSpec.length = 60 := by
  rw [meshSpec_length]
  have hzero : ∀ i, i < CHUNK_SIZE → i ≠ x → i ≠ x + 1 →
      ((List.range CHUNK_SIZE).map fun j =>
        ((List.range CHUNK_SIZE).map fun k =>
          ((twoBlockChunk x y z pal ci cj).blockMeshSpec i j k).length).sum).sum = 0 := by
    intro i hi hne1 hne2
    apply sum_map_range_zero
    intro j hj
    apply sum_map_range_zero
    intro k hk
    rw [twoBlock_contrib_zero x y z pal ci cj i j k
      (fun hc => hne1 hc.1) (fun hc => hne2 hc.1)]
    rfl
  rw [sum_map_range_pair CHUNK_SIZE x (x + 1) _ (by omega) hx1 hzero]
  have hfst : ((List.range CHUNK_SIZE).map fun j =>
      ((List.range CHUNK_SIZE).map fun k =>
        ((twoBlockChunk x y z pal ci cj).blockMeshSpec x j k).length).sum).sum = 30 := by
    have hoz : ∀ k, k < CHUNK_SIZE → k ≠ z →
        ((twoBlockChunk x y z pal ci cj).blockMeshSpec x y k).length = 0 := by
      intro k hk hne
      rw [twoBlock_contrib_zero x y z pal ci cj x y k
        (fun hc => hne hc.2.2) (fun hc => by omega)]
      rfl
    have hoy : ∀ j, j < CHUNK_SIZE → j ≠ y →
        ((List.range CHUNK_SIZE).map fun k =>
          ((twoBlockChunk x y z pal ci cj).blockMeshSpec x j k).length).sum = 0 := by
      intro j hj hne
      apply sum_map_range_zero
      intro k hk
      rw [twoBlock_contrib_zero x y z pal ci cj x j k
        (fun hc => hne hc.2.1) (fun hc => by omega)]
      rfl
    rw [sum_map_range_single CHUNK_SIZE y _ hy hoy,
      sum_map_range_single CHUNK_SIZE z _ hz hoz]
    exact twoBlock_contrib_fst x y z pal ci cj hx1 hy hz hci
  have hsnd : ((List.range CHUNK_SIZE).map fun j =>
      ((List.range CHUNK_SIZE).map fun k =>
        ((twoBlockChunk x y z pal ci cj).blockMeshSpec (x + 1) j k).length).sum).sum = 30 := by
    have hoz : ∀ k, k < CHUNK_SIZE → k ≠ z →
        ((twoBlockChunk x y z pal ci cj).blockMeshSpec (x + 1) y k).length = 0 := by
      intro k hk hne
      rw [twoBlock_contrib_zero x y z pal ci cj (x + 1) y k
        (fun hc => by omega) (fun hc => hne hc.2.2)]
      rfl
    have hoy : ∀ j, j < CHUNK_SIZE → j ≠ y →
        ((List.range CHUNK_SIZE).map fun k =>
          ((twoBlockChunk x y z pal ci cj).blockMeshSpec (x + 1) j k).length).sum = 0 := by
      intro j hj hne
      apply sum_map_range_zero
      intro k hk
      rw [twoBlock_contrib_zero x y z pal ci cj (x + 1) j k
        (fun hc => by omega) (fun hc => hne hc.2.1)]
      rfl
    rw [sum_map_range_single CHUNK_SIZE y _ hy hoy,
      sum_map_range_single CHUNK_SIZE z _ hz hoz]
    exact twoBlock_contrib_snd x y z pal ci cj hx1 hy hz hcj
  rw [hfst, hsnd]

/-- **C4.** `generate_mesh` refines the face-culling specification: whenever
every active block's palette index is valid it succeeds and produces, block
by block in grid order, exactly the faces whose neighbour is outside the
`32×32×32` grid or inactive (`faceVisible`); every emitted face contributes
exactly 6 vertices carrying the palette-resolved color and that face's
normal; a single isolated active block yields 36 vertices; two adjacent
active blocks yield 60 vertices, the shared face being visible from neither
side. -/
theorem c4_face_culling :
    (∀ c : Chunk, c.paletteOk → c.generate_mesh = some ⟨c.meshSpec⟩) ∧
    (∀ (f : FaceDir) (x y z : Nat) (col : Color),
      (faceData f x y z col).length = 6 ∧
      ∀ v ∈ faceData f x y z col, v.color = col ∧ v.normal = faceNormal f) ∧
    (∀ (x y z : Nat) (pal : List Color) (ci : Nat),
      x < CHUNK_SIZE → y < CHUNK_SIZE → z < CHUNK_SIZE → ci < pal.length →
      (singleBlockChunk x y z pal ci).generate_mesh.map (fun m => m.vertex_data.length)
        = some 36) ∧
    (∀ (x y z : Nat) (pal : List Color) (ci cj : Nat),
      x + 1 < CHUNK_SIZE → y < CHUNK_SIZE → z < CHUNK_SIZE →
      ci < pal.length → cj < pal.length →
      (twoBlockChunk x y z pal ci cj).generate_mesh.map (fun m => m.vertex_data.length)
        = some 60 ∧
      (twoBlockChunk x y z pal ci cj).faceVisible x y z .rightF = false ∧
      (twoBlockChunk x y z pal ci cj).faceVisible (x + 1) y z .leftF = false) := by
  refine ⟨generate_mesh_eq_spec, ?_, ?_, ?_⟩
  · intro f x y z col
    exact ⟨faceData_length f x y z col, faceData_geometry f x y z col⟩
  · intro x y z pal ci hx hy hz hci
    rw [generate_mesh_eq_spec _ (singleBlock_paletteOk x y z pal ci hci)]
    simp only [Option.map_some']
    exact congrArg some (singleBlock_meshSpec_length x y z pal ci hx hy hz hci)
  · intro x y z pal ci cj hx1 hy hz hci hcj
    refine ⟨?_, ?_, ?_⟩
    · rw [generate_mesh_eq_spec _ (twoBlock_paletteOk x y z pal ci cj hci hcj)]
      simp only [Option.map_some']
      exact congrArg some (twoBlock_meshSpec_length x y z pal ci cj hx1 hy hz hci hcj)
    · rw [twoBlock_vis_fst x y z pal ci cj hx1 hy hz FaceDir.rightF]
      rfl
    · rw [twoBlock_vis_snd x y z pal ci cj hx1 hy hz FaceDir.leftF]
      rfl

/-- Witness for C4: the isolated block at `(1, 2, 3)` meshes to exactly 36
vertices and the adjacent pair at `(4, 5, 6)`–`(5, 5, 6)` to exactly 60. -/
theorem c4_face_culling_witness :
    (singleBlockChunk 1 2 3 [⟨5, 6, 7⟩] 0).generate_mesh.map
        (fun m => m.vertex_data.length) = some 36 ∧
    (twoBlockChunk 4 5 6 [⟨1, 2, 3⟩, ⟨4, 4, 4⟩] 0 1).generate_mesh.map
        (fun m => m.vertex_data.length) = some 60 :=
  ⟨c4_face_culling.2.2.1 1 2 3 [⟨5, 6, 7⟩] 0
      (by decide) (by decide) (by decide) (by decide),
   (c4_face_culling.2.2.2 4 5 6 [⟨1, 2, 3⟩, ⟨4, 4, 4⟩] 0 1
      (by decide) (by decide) (by decide) (by decide) (by decide)).1⟩
